import Mathlib

/-!
# BandwithPlotter: the sample pipeline and the chart model of `main.c`

A shallow embedding of `progress_callback` (the rate estimator) and of `update`
(the chart model) of `main.c`, with the properties proved about them.

Modelling conventions.

* `double` values are exact rationals (`ℚ`): the rounding of `double` arithmetic,
  infinities and NaN are outside the model.  A `double` stored into a `float` that
  the program later reads back as data is narrowed by `float_of_double`: the static
  `lastTime` of `progress_callback` and the raw points of the two series (the
  fields of an `sfVertex` are `float`s, the ceiling `limitSpeed` is a `double`).
  The screen positions and the geometry of the plot, `float`s as well, are kept
  exact.
* A `sfVertexArray` is a `List sfVertex`: `sfVertexArray_getVertexCount` is
  `List.length`, `sfVertexArray_append` appends at the end and
  `sfVertexArray_getVertex a i` is `a[i]?`.  The accesses `update` makes are listed
  by `relocate_vertices_reads`, `offset_vertices_reads` and `update_reads`.  An
  access with `i` past the end is undefined behaviour in the program:
  `update_strict` gives a call a resulting state only when every access it makes is
  in range.  `update` itself is the call as it goes when such an access touches no
  element of the arrays (an iteration of a loop that makes one leaves the arrays as
  they are); the two agree wherever `update_strict` has a state.
* Function-local `static` variables (`limitSpeed` of `update`; `lastSecondQueue`,
  `clearQueue` and `lastTime` of `progress_callback`) are fields of `Application`.
* Records are values: the record pushed on the shared queue is in the program the
  very record `lastSecondQueue` keeps, which the cleanup loop frees twenty seconds
  later; `free` is not modelled.  The `speed` and `lastSecondSpeed` fields of a
  record kept in `lastSecondQueue` are never read through that queue; they are left
  `0` there.
* The text widgets, the axis rectangles, the legend and the texture coordinates of a
  vertex are not modelled.
-/

namespace BandwithPlotter

/-! ## Constants and types -/

/-- Update tick frequency (`#define UPDATE_TICK_FREQUENCY 0.01`). -/
def UPDATE_TICK_FREQUENCY : ℚ := 1 / 100

/-- Size in pixels between each tick on the X axis (`#define X_TILE_SIZE 150`). -/
def X_TILE_SIZE : ℚ := 150

/-- The colours the chart uses; `sfTransparent` is the all-zero colour of a
zero-initialised vertex. -/
inductive sfColor where
  | sfTransparent
  | sfRed
  | sfYellow
deriving DecidableEq, Repr

/-- A pair of coordinates. -/
structure sfVector2f where
  x : ℚ
  y : ℚ
deriving DecidableEq, Repr

/-- A vertex: a position and a colour. -/
structure sfVertex where
  position : sfVector2f
  color : sfColor
deriving DecidableEq, Repr

/-- The desktop video mode reported by `sfVideoMode_getDesktopMode`. -/
structure sfVideoMode where
  width : ℕ
  height : ℕ
deriving DecidableEq, Repr

/-- One sample: `typedef struct { double time, speed, size, lastSecondSpeed; } VertexData`. -/
structure VertexData where
  time : ℚ
  speed : ℚ
  size : ℚ
  lastSecondSpeed : ℚ
deriving DecidableEq, Repr

/-- The chart: `typedef struct { ... } Graphics`, without the text widgets. -/
structure Graphics where
  width : ℚ
  height : ℚ
  padding : sfVector2f
  axisSize : sfVector2f
  startAxisTime : ℚ
  averageBandwith : List sfVertex
  averageBandwithData : List sfVertex
  currentBandwith : List sfVertex
  currentBandwithData : List sfVertex
deriving DecidableEq, Repr

/-- The application state together with the function-local statics. -/
structure Application where
  graphics : Graphics
  dataQueue : List VertexData
  limitSpeed : ℚ
  lastSecondQueue : List VertexData
  clearQueue : List VertexData
  lastTime : ℚ
deriving DecidableEq, Repr

/-- The three values `progress_callback` asks of `curl_easy_getinfo`:
`CURLINFO_TOTAL_TIME`, `CURLINFO_SIZE_DOWNLOAD` and `CURLINFO_SPEED_DOWNLOAD`. -/
structure CurlInfo where
  totalTime : ℚ
  sizeDownload : ℚ
  speedDownload : ℚ
deriving DecidableEq, Repr

/-! ## A `double` stored into a `float` -/

/-- Halvings of `n` that leave at least 1, at most `fuel` of them: the integer part
of the binary logarithm of `n` when `1 ≤ n` and `fuel = n`. -/
def halvings : ℕ → ℕ → ℕ
  | 0, _ => 0
  | fuel + 1, n => if n < 2 then 0 else halvings fuel (n / 2) + 1

/-- The exponent `e` with `2 ^ e ≤ x < 2 ^ (e + 1)`, for a positive `x`. -/
def floor_log2 (x : ℚ) : ℤ :=
  let e : ℤ := (halvings x.num.natAbs x.num.natAbs : ℤ) - (halvings x.den x.den : ℤ)
  if (2 : ℚ) ^ e ≤ x then e else e - 1

/-- The integer nearest to `r`, the even one of the two when `r` lies half-way. -/
def round_half_even (r : ℚ) : ℤ :=
  if r - ⌊r⌋ < 1 / 2 then ⌊r⌋
  else if r - ⌊r⌋ > 1 / 2 then ⌊r⌋ + 1
  else if ⌊r⌋ % 2 = 0 then ⌊r⌋ else ⌊r⌋ + 1

/-- The value a `float` holds once the `double` `x` is stored into it (IEEE 754
binary32, round to nearest, ties to even): `x` rounded to a multiple of
`2 ^ (e - 23)`, where `2 ^ e ≤ |x| < 2 ^ (e + 1)` and `e` is at least `-126`.
Values too large for a `float` are outside the model. -/
def float_of_double (x : ℚ) : ℚ :=
  if x = 0 then 0
  else
    round_half_even (x / (2 : ℚ) ^ (max (floor_log2 |x|) (-126) - 23)) *
      (2 : ℚ) ^ (max (floor_log2 |x|) (-126) - 23)

/-! ## The queue -/

/-- Modelled from the spec: `BbQueue/BbQueue.c` is missing; `bb_queue_add` appends
an element at the tail of the queue. -/
def bb_queue_add {α : Type} (q : List α) (data : α) : List α := q ++ [data]

/-- Modelled from the spec: `BbQueue/BbQueue.c` is missing; `push(Sample)` appends
to the tail. -/
def bb_queue_push {α : Type} (q : List α) (data : α) : List α := q ++ [data]

/-- Modelled from the spec: `BbQueue/BbQueue.c` is missing; `pop` removes and
returns the head, or reports an empty queue. -/
def bb_queue_pop {α : Type} : List α → Option α × List α
  | [] => (none, [])
  | data :: q => (some data, q)

/-- Modelled from the spec: `BbQueue/BbQueue.c` is missing; `remove` drops one
element if present and is a no-op otherwise. -/
def bb_queue_remv {α : Type} [DecidableEq α] (q : List α) (data : α) : List α :=
  q.erase data

/-! ## Projection of a sample onto the screen -/

/-- Source: `get_vertex_x`. -/
def get_vertex_x (v : sfVertex) (time start : ℚ) : sfVertex :=
  { v with position := { v.position with x := (time - start) * X_TILE_SIZE } }

/-- Source: `get_vertex_y`. -/
def get_vertex_y (v : sfVertex) (axisSizeY speed limitSpeed : ℚ) : sfVertex :=
  { v with position := { v.position with y := axisSizeY - speed * axisSizeY / limitSpeed } }

/-- Source: `get_vertex_pos`. -/
def get_vertex_pos (v : sfVertex) (axisSize : sfVector2f) (startAxisTime time speed limitSpeed : ℚ) :
    sfVertex :=
  let v := get_vertex_x v time startAxisTime
  let v := get_vertex_y v axisSize.y speed limitSpeed
  if v.position.x ≥ axisSize.x then
    { v with position := { v.position with x := axisSize.x } }
  else v

/-- Source: `add_padding`, nested in `update`. -/
def add_padding (padding : sfVector2f) (v : sfVertex) : sfVertex :=
  { v with position := { x := v.position.x + padding.x, y := v.position.y + padding.y } }

/-! ## `update` -/

/-- The body of the loops of `relocate_vertices`: the new value of the vertex `v`
whose raw data is `vData`. -/
def relocate_vertex (padding axisSize : sfVector2f) (startAxisTime limitSpeed : ℚ)
    (v vData : sfVertex) : sfVertex :=
  add_padding padding
    (get_vertex_pos v axisSize startAxisTime vData.position.x vData.position.y limitSpeed)

/-- One loop of `relocate_vertices`: `for (i = 0; i < size; i++)` over a vertex
array `band` and its raw-data array `bandData`.  An iteration with `i` past the end of
either array, undefined behaviour in the program, changes nothing here; `update_strict`
gives no state to a call that makes one. -/
def relocate_band (padding axisSize : sfVector2f) (startAxisTime limitSpeed : ℚ) (size : ℕ)
    (band bandData : List sfVertex) : List sfVertex :=
  (List.range size).foldl (fun band i =>
    match band[i]?, bandData[i]? with
    | some v, some vData =>
      band.set i (relocate_vertex padding axisSize startAxisTime limitSpeed v vData)
    | _, _ => band) band

/-- Source: `relocate_vertices`, nested in `update`; `avgSize` and `curSize` are the
counts captured at the start of `update`. -/
def relocate_vertices (g : Graphics) (avgSize curSize : ℕ) (limitSpeed : ℚ) : Graphics :=
  let averageBandwith := relocate_band g.padding g.axisSize g.startAxisTime limitSpeed avgSize
    g.averageBandwith g.averageBandwithData
  let currentBandwith := relocate_band g.padding g.axisSize g.startAxisTime limitSpeed curSize
    g.currentBandwith g.currentBandwithData
  { g with averageBandwith := averageBandwith, currentBandwith := currentBandwith }

/-- Source: `offset_vertices`, nested in `update`: the new `startAxisTime`, `band`
and `bandData`. -/
def offset_vertices (startAxisTime : ℚ) (avgSize : ℕ) (curB curBData : List sfVertex) :
    ℚ × List sfVertex × List sfVertex :=
  (List.range' 1 (avgSize - 1)).foldl (fun st i =>
    match curB[i]?, curBData[i]? with
    | some v, some vData =>
      (if i = 1 then vData.position.x else st.1, st.2.1 ++ [v], st.2.2 ++ [vData])
    | _, _ => st) (startAxisTime, [], [])

/-- One of the two checks "do we need to relocate vertices" of `update`, for the
rate `rate` (`data->speed`, then `data->lastSecondSpeed`). -/
def raise_limit (self : Application) (avgSize curSize : ℕ) (rate : ℚ) : Application :=
  if rate ≥ self.limitSpeed then
    { self with
      limitSpeed := rate,
      graphics := relocate_vertices self.graphics avgSize curSize rate }
  else self

/-- The two checks of `update`, in order. -/
def update_limit (self : Application) (avgSize curSize : ℕ) (data : VertexData) : Application :=
  raise_limit (raise_limit self avgSize curSize data.speed) avgSize curSize data.lastSecondSpeed

/-- The two calls of `offset_vertices` in `update` and the replacement of the four
arrays by their results. -/
def rebuild_series (g : Graphics) (avgSize : ℕ) : Graphics :=
  let avg := offset_vertices g.startAxisTime avgSize g.averageBandwith g.averageBandwithData
  let cur := offset_vertices avg.1 avgSize g.currentBandwith g.currentBandwithData
  { g with
    startAxisTime := cur.1,
    averageBandwith := avg.2.1,
    averageBandwithData := avg.2.2,
    currentBandwith := cur.2.1,
    currentBandwithData := cur.2.2 }

/-- The body of `if (averageBpVx.position.x >= graphics->axisSize.x)` in `update`:
the series are rebuilt, then `relocate_vertices` runs with the counts captured at
the start of `update`, one more than the rebuilt arrays hold when they held a vertex. -/
def update_overflow (self : Application) (avgSize curSize : ℕ) : Application :=
  { self with graphics :=
      relocate_vertices (rebuild_series self.graphics avgSize) avgSize curSize self.limitSpeed }

/-- The vertex a local `sfVertex` variable holds before it is assigned. -/
def blankVertex : sfVertex := ⟨⟨0, 0⟩, sfColor.sfTransparent⟩

/-- The part of `update` that runs once a sample `data` has been popped.  The raw
points `averageBpVxData` and `currentBpVxData` are `sfVertex` values: the time and
the rate of the sample are stored into `float`s. -/
def update_sample (self : Application) (data : VertexData) : Application :=
  let avgSize := self.graphics.averageBandwith.length
  let curSize := self.graphics.currentBandwith.length
  let self := update_limit self avgSize curSize data
  let graphics := self.graphics
  let averageBpVx := get_vertex_pos blankVertex graphics.axisSize graphics.startAxisTime
    data.time data.speed self.limitSpeed
  let currentBpVx := get_vertex_pos blankVertex graphics.axisSize graphics.startAxisTime
    data.time data.lastSecondSpeed self.limitSpeed
  let self :=
    if averageBpVx.position.x ≥ graphics.axisSize.x then update_overflow self avgSize curSize
    else self
  let graphics := self.graphics
  let averageBpVx := { add_padding graphics.padding averageBpVx with color := sfColor.sfRed }
  let currentBpVx := { add_padding graphics.padding currentBpVx with color := sfColor.sfYellow }
  let averageBpVxData : sfVertex :=
    ⟨⟨float_of_double data.time, float_of_double data.speed⟩, sfColor.sfTransparent⟩
  let currentBpVxData : sfVertex :=
    ⟨⟨float_of_double data.time, float_of_double data.lastSecondSpeed⟩, sfColor.sfTransparent⟩
  { self with graphics := { graphics with
      averageBandwith := graphics.averageBandwith ++ [averageBpVx],
      averageBandwithData := graphics.averageBandwithData ++ [averageBpVxData],
      currentBandwith := graphics.currentBandwith ++ [currentBpVx],
      currentBandwithData := graphics.currentBandwithData ++ [currentBpVxData] } }

/-- Source: `update`, as it goes when an out-of-range access touches no element of
the arrays. -/
def update (self : Application) : Application :=
  match bb_queue_pop self.dataQueue with
  | (none, _) => self
  | (some data, rest) => update_sample { self with dataQueue := rest } data

/-! ## The indexed accesses of `update` -/

/-- One call of `sfVertexArray_getVertex`: the index asked for and the vertex count
of the array it is asked of. -/
structure VertexRead where
  index : ℕ
  count : ℕ
deriving DecidableEq, Repr

/-- The calls of `sfVertexArray_getVertex` made by `relocate_vertices`. -/
def relocate_vertices_reads (g : Graphics) (avgSize curSize : ℕ) : List VertexRead :=
  (List.range avgSize).flatMap (fun i =>
    [⟨i, g.averageBandwith.length⟩, ⟨i, g.averageBandwithData.length⟩]) ++
  (List.range curSize).flatMap (fun i =>
    [⟨i, g.currentBandwith.length⟩, ⟨i, g.currentBandwithData.length⟩])

/-- The calls of `sfVertexArray_getVertex` made by `offset_vertices`. -/
def offset_vertices_reads (avgSize : ℕ) (curB curBData : List sfVertex) : List VertexRead :=
  (List.range' 1 (avgSize - 1)).flatMap (fun i => [⟨i, curB.length⟩, ⟨i, curBData.length⟩])

/-- The calls of `sfVertexArray_getVertex` made by one of the two checks. -/
def raise_limit_reads (self : Application) (avgSize curSize : ℕ) (rate : ℚ) : List VertexRead :=
  if rate ≥ self.limitSpeed then relocate_vertices_reads self.graphics avgSize curSize else []

/-- The calls of `sfVertexArray_getVertex` made by the overflow branch. -/
def update_overflow_reads (self : Application) (avgSize curSize : ℕ) : List VertexRead :=
  let g := self.graphics
  offset_vertices_reads avgSize g.averageBandwith g.averageBandwithData ++
  offset_vertices_reads avgSize g.currentBandwith g.currentBandwithData ++
  relocate_vertices_reads (rebuild_series g avgSize) avgSize curSize

/-- The calls of `sfVertexArray_getVertex` made by `update` once `data` is popped, in
order. -/
def update_reads (self : Application) (data : VertexData) : List VertexRead :=
  let avgSize := self.graphics.averageBandwith.length
  let curSize := self.graphics.currentBandwith.length
  let self1 := raise_limit self avgSize curSize data.speed
  let self2 := raise_limit self1 avgSize curSize data.lastSecondSpeed
  let averageBpVx := get_vertex_pos blankVertex self2.graphics.axisSize
    self2.graphics.startAxisTime data.time data.speed self2.limitSpeed
  raise_limit_reads self avgSize curSize data.speed ++
  raise_limit_reads self1 avgSize curSize data.lastSecondSpeed ++
  (if averageBpVx.position.x ≥ self2.graphics.axisSize.x then
    update_overflow_reads self2 avgSize curSize
  else [])

/-! ## `update` with an out-of-range access as undefined behaviour -/

/-- Source: `update`, where a call of `sfVertexArray_getVertex` with an index past the
end is undefined behaviour: the call has a resulting state, the one `update` gives,
only when every access it makes is in range. -/
def update_strict (self : Application) : Option Application :=
  match bb_queue_pop self.dataQueue with
  | (none, _) => some self
  | (some data, rest) =>
    if ∀ r ∈ update_reads { self with dataQueue := rest } data, r.index < r.count then
      some (update_sample { self with dataQueue := rest } data)
    else none

/-! ## `progress_callback` -/

/-- The locals `bytesCount` and `lastBytesCount` and the static `clearQueue` while
`progress_callback` walks `lastSecondQueue`. -/
structure ScanState where
  bytesCount : ℚ
  lastBytesCount : ℚ
  clearQueue : List VertexData
deriving DecidableEq, Repr

/-- The body of `foreach_bbqueue_item(&lastSecondQueue, VertexData *data)`. -/
def scan_item (time : ℚ) (st : ScanState) (data : VertexData) : ScanState :=
  if data.time ≤ time ∧ data.time ≥ time - 1 then
    let lastBytesCount := if st.lastBytesCount = 0 then data.size else st.lastBytesCount
    { st with
      bytesCount := st.bytesCount + (data.size - lastBytesCount),
      lastBytesCount := data.size }
  else if time ≥ data.time + 20 then
    { st with clearQueue := bb_queue_add st.clearQueue data }
  else st

/-- The loop `while (bb_queue_get_length(&clearQueue))`: every popped record is
removed from `lastSecondQueue`. -/
def cleanup : List VertexData → List VertexData → List VertexData
  | [], lastSecondQueue => lastSecondQueue
  | data :: clearQueue, lastSecondQueue => cleanup clearQueue (bb_queue_remv lastSecondQueue data)

/-- Source: `progress_callback`.  `lastTime` is a `static float`: the assignment
`lastTime = time` narrows the `double`. -/
def progress_callback (self : Application) (info : CurlInfo) : Application :=
  let time := info.totalTime
  let size := info.sizeDownload
  let data : VertexData := { time := time, size := size / 1024, speed := 0, lastSecondSpeed := 0 }
  let lastSecondQueue := bb_queue_add self.lastSecondQueue data
  if time - self.lastTime ≥ UPDATE_TICK_FREQUENCY then
    let data := { data with speed := info.speedDownload / 1024 }
    let st := lastSecondQueue.foldl (scan_item time) ⟨0, 0, self.clearQueue⟩
    let lastSecondQueue := cleanup st.clearQueue lastSecondQueue
    let data := { data with lastSecondSpeed := st.bytesCount }
    { self with
      lastTime := float_of_double time,
      lastSecondQueue := lastSecondQueue,
      clearQueue := [],
      dataQueue := bb_queue_push self.dataQueue data }
  else
    { self with lastSecondQueue := lastSecondQueue }

/-! ## Initialisation and runs -/

/-- Source: `init_graphics`, without the fonts and the text widgets. -/
def init_graphics (desktop : sfVideoMode) : Graphics :=
  let width : ℚ := desktop.width * (666 / 1000)
  let height : ℚ := desktop.height * (333 / 1000)
  let padding : sfVector2f := ⟨50, 60⟩
  { width := width
    height := height
    padding := padding
    startAxisTime := 0
    axisSize := ⟨width - (padding.x * 2 + 100), height - padding.y * 2⟩
    averageBandwith := []
    averageBandwithData := []
    currentBandwith := []
    currentBandwithData := [] }

/-- Source: `application_init` and the initial values of the statics: `limitSpeed = 1000`,
empty `lastSecondQueue` and `clearQueue`, `lastTime = 0.0`.  The shared queue holds
`samples`, the samples the producer pushes during the run, in order: `update` only
ever takes the head of the queue, so a run of `update` calls consumes them one by one
whenever they were pushed. -/
def application_init (desktop : sfVideoMode) (samples : List VertexData) : Application :=
  { graphics := init_graphics desktop
    dataQueue := samples
    limitSpeed := 1000
    lastSecondQueue := []
    clearQueue := []
    lastTime := 0 }

/-- The state after `k` calls of `update`. -/
def updates : ℕ → Application → Application
  | 0, self => self
  | k + 1, self => updates k (update self)

/-- The state after `k` calls of `update`, when each of them stays within the arrays. -/
def updates_strict : ℕ → Application → Option Application
  | 0, self => some self
  | k + 1, self => (update_strict self).bind (updates_strict k)

/-- The state after the calls of `progress_callback` that see `infos`, in order. -/
def progress_callbacks (self : Application) (infos : List CurlInfo) : Application :=
  infos.foldl progress_callback self

/-! ## Vocabulary of the statements -/

/-- The vertex `v` is the projection of the raw point `d`: the upper clamp of
`get_vertex_pos`, then `add_padding`. -/
def Projected (p a : sfVector2f) (s L : ℚ) (d v : sfVertex) : Prop :=
  v.position.x = min ((d.position.x - s) * X_TILE_SIZE) a.x + p.x ∧
  v.position.y = a.y - d.position.y * a.y / L + p.y

/-- The four arrays of the chart have the same vertex count. -/
def Aligned (g : Graphics) : Prop :=
  g.averageBandwithData.length = g.averageBandwith.length ∧
  g.currentBandwithData.length = g.currentBandwith.length ∧
  g.averageBandwith.length = g.currentBandwith.length

/-- Every vertex of both series is the projection of its raw point, for the origin
`s` and the ceiling `L`. -/
def AllProjected (g : Graphics) (s L : ℚ) : Prop :=
  List.Forall₂ (Projected g.padding g.axisSize s L) g.averageBandwithData g.averageBandwith ∧
  List.Forall₂ (Projected g.padding g.axisSize s L) g.currentBandwithData g.currentBandwith

/-- The origin after a rebuild: the raw time at index 1 of the old series when there
is one, the old origin otherwise. -/
def rebuilt_start (g : Graphics) : ℚ :=
  (g.currentBandwithData[1]?.map (fun d => d.position.x)).getD
    ((g.averageBandwithData[1]?.map (fun d => d.position.x)).getD g.startAxisTime)

/-- The projected X of the sample reaches the right edge of the plot: the test
`averageBpVx.position.x >= graphics->axisSize.x`. -/
def overflows (self : Application) (data : VertexData) : Prop :=
  (data.time - self.graphics.startAxisTime) * X_TILE_SIZE ≥ self.graphics.axisSize.x

instance (self : Application) (data : VertexData) : Decidable (overflows self data) := by
  unfold overflows; infer_instance

/-- The state of `update` just before the two new vertices are appended. -/
def before_append (self : Application) (data : VertexData) : Application :=
  let avgSize := self.graphics.averageBandwith.length
  let curSize := self.graphics.currentBandwith.length
  if overflows self data then
    update_overflow (update_limit self avgSize curSize data) avgSize curSize
  else update_limit self avgSize curSize data

/-- The vertex that `update` appends for the rate `rate` of the sample, with colour `c`. -/
def new_vertex (self : Application) (data : VertexData) (rate : ℚ) (c : sfColor) : sfVertex :=
  { add_padding self.graphics.padding
      (get_vertex_pos blankVertex self.graphics.axisSize self.graphics.startAxisTime data.time rate
        (max (max self.limitSpeed data.speed) data.lastSecondSpeed)) with color := c }

/-- No raw value of the chart and no rate of a queued sample is negative. -/
def NonNegRates (self : Application) : Prop :=
  (∀ d ∈ self.graphics.averageBandwithData ++ self.graphics.currentBandwithData,
    0 ≤ d.position.y) ∧
  ∀ d ∈ self.dataQueue, 0 ≤ d.speed ∧ 0 ≤ d.lastSecondSpeed

/-- No vertex of either series is below the bottom edge of the plot. -/
def AboveBottom (g : Graphics) : Prop :=
  ∀ v ∈ g.averageBandwith ++ g.currentBandwith, v.position.y ≤ g.padding.y + g.axisSize.y

/-- The vertex `v` of the raw point `d` is not above the top edge of the plot when the
value stored in `d` is at most the ceiling `L`. -/
def BelowTop (p : sfVector2f) (L : ℚ) (d v : sfVertex) : Prop :=
  d.position.y ≤ L → p.y ≤ v.position.y

/-- Every vertex of both series whose stored value is at most the ceiling `L` is not
above the top edge of the plot. -/
def AllBelowTop (g : Graphics) (L : ℚ) : Prop :=
  List.Forall₂ (BelowTop g.padding L) g.averageBandwithData g.averageBandwith ∧
  List.Forall₂ (BelowTop g.padding L) g.currentBandwithData g.currentBandwith

/-- What holds of every chart state reached from `application_init` by `update` calls
on samples of non-negative rates: the arrays are aligned, the ceiling is positive, no
stored value is negative and, on a plot of non-negative height, no vertex is below the
bottom edge and no vertex whose stored value is at most the ceiling is above the top
edge. -/
structure PlotInv (app : Application) : Prop where
  aligned : Aligned app.graphics
  limit_pos : 0 < app.limitSpeed
  nonneg : NonNegRates app
  bottom : 0 ≤ app.graphics.axisSize.y → AboveBottom app.graphics
  top : 0 ≤ app.graphics.axisSize.y → AllBelowTop app.graphics app.limitSpeed

/-- The projection with a two-sided clamp, for a (raw point, vertex) pair: the X
coordinate clamped to `[0, axisSize.x]` and the Y coordinate, both after padding. -/
def ClampedProjection (g : Graphics) (L : ℚ) (d v : sfVertex) : Prop :=
  v.position.x =
    g.padding.x + max 0 (min ((d.position.x - g.startAxisTime) * X_TILE_SIZE) g.axisSize.x) ∧
  v.position.y = g.padding.y + g.axisSize.y - d.position.y * g.axisSize.y / L

instance (g : Graphics) (L : ℚ) (d v : sfVertex) : Decidable (ClampedProjection g L d v) := by
  unfold ClampedProjection; infer_instance

/-- The buffer that a call of `progress_callback` walks: `lastSecondQueue` with the
record of the call added at its tail. -/
def scanned_buffer (self : Application) (info : CurlInfo) : List VertexData :=
  bb_queue_add self.lastSecondQueue ⟨info.totalTime, 0, info.sizeDownload / 1024, 0⟩

/-- The samples of the buffer `q` that lie in the window of the call at `time`, those
with `time - 1 <= data->time <= time`, in buffer order. -/
def in_window (time : ℚ) (q : List VertexData) : List VertexData :=
  q.filter (fun data => data.time ≤ time ∧ data.time ≥ time - 1)

/-- The windowed rate in words: the size of the last sample of the window minus the
size of the first sample of the window whose size is not zero, and `0` when no
sample of the window has a non-zero size. -/
def last_minus_first_nonzero (window : List VertexData) : ℚ :=
  match window.find? (fun data => data.size ≠ 0), window.getLast? with
  | some first, some last => last.size - first.size
  | _, _ => 0

/-! ## Theorems -/

/-! ### The loops of `relocate_vertices` -/

theorem relocate_band_succ (p a : sfVector2f) (s L : ℚ) (k : ℕ) (band bandData : List sfVertex) :
    relocate_band p a s L (k + 1) band bandData =
      match (relocate_band p a s L k band bandData)[k]?, bandData[k]? with
      | some v, some vData =>
        (relocate_band p a s L k band bandData).set k (relocate_vertex p a s L v vData)
      | _, _ => relocate_band p a s L k band bandData := by
  simp only [relocate_band, List.range_succ, List.foldl_append, List.foldl_cons, List.foldl_nil]

theorem relocate_band_length (p a : sfVector2f) (s L : ℚ) (k : ℕ) (band bandData : List sfVertex) :
    (relocate_band p a s L k band bandData).length = band.length := by
  induction k with
  | zero => simp [relocate_band]
  | succ k ih =>
    rw [relocate_band_succ]
    split <;> simp [ih]

theorem relocate_band_getElem? (p a : sfVector2f) (s L : ℚ) (k : ℕ) (band bandData : List sfVertex)
    (hlen : band.length = bandData.length) (i : ℕ) :
    (relocate_band p a s L k band bandData)[i]? =
      if i < k then (List.zipWith (relocate_vertex p a s L) band bandData)[i]? else band[i]? := by
  induction k generalizing i with
  | zero => simp [relocate_band]
  | succ k ih =>
    rw [relocate_band_succ]
    have hk := ih k
    simp only [lt_self_iff_false, if_false] at hk
    rw [hk]
    by_cases hkl : k < band.length
    · have hkd : k < bandData.length := hlen ▸ hkl
      rw [List.getElem?_eq_getElem hkl, List.getElem?_eq_getElem hkd]
      simp only
      rw [List.getElem?_set]
      by_cases hik : k = i
      · subst hik
        simp [relocate_band_length, hkl, List.getElem?_zipWith, List.getElem?_eq_getElem hkl,
          List.getElem?_eq_getElem hkd]
      · rw [if_neg hik, ih i]
        have : (i < k + 1) ↔ (i < k) := by omega
        simp [this]
    · have hkd : ¬ k < bandData.length := hlen ▸ hkl
      rw [List.getElem?_eq_none (by omega : band.length ≤ k)]
      simp only
      rw [ih i]
      by_cases hik : i < k
      · have : i < k + 1 := by omega
        simp [hik, this]
      · by_cases hik2 : i = k
        · subst hik2
          simp [List.getElem?_zipWith, List.getElem?_eq_none (by omega : band.length ≤ i)]
        · have : ¬ i < k + 1 := by omega
          simp [hik, this]

theorem relocate_band_eq (p a : sfVector2f) (s L : ℚ) (k : ℕ) (band bandData : List sfVertex)
    (hlen : band.length = bandData.length) (hk : band.length ≤ k) :
    relocate_band p a s L k band bandData = List.zipWith (relocate_vertex p a s L) band bandData := by
  apply List.ext_getElem?
  intro i
  rw [relocate_band_getElem? p a s L k band bandData hlen i]
  by_cases hik : i < k
  · simp [hik]
  · simp only [hik, if_false]
    rw [List.getElem?_eq_none (by omega), List.getElem?_eq_none]
    simp [List.length_zipWith]; omega

/-! ### The loop of `offset_vertices` -/

/-- The loop of `offset_vertices` after its first `k` iterations. -/
theorem offset_fold_eq (start : ℚ) (curB curBData : List sfVertex)
    (hlen : curB.length = curBData.length) (k : ℕ) (hk : k + 1 ≤ curB.length) :
    (List.range' 1 k).foldl (fun (st : ℚ × List sfVertex × List sfVertex) i =>
      match curB[i]?, curBData[i]? with
      | some v, some vData =>
        (if i = 1 then vData.position.x else st.1, st.2.1 ++ [v], st.2.2 ++ [vData])
      | _, _ => st) (start, [], []) =
    ((if 0 < k then (curBData[1]?.map (fun d => d.position.x)).getD start else start),
      (curB.drop 1).take k, (curBData.drop 1).take k) := by
  induction k with
  | zero => simp
  | succ k ih =>
    rw [List.range'_1_concat, List.foldl_append, ih (by omega)]
    have h1 : 1 + k < curB.length := by omega
    have h2 : 1 + k < curBData.length := by omega
    simp only [List.foldl_cons, List.foldl_nil, List.getElem?_eq_getElem h1,
      List.getElem?_eq_getElem h2]
    have h3 : 1 < curBData.length := by omega
    refine Prod.ext ?_ (Prod.ext ?_ ?_)
    · by_cases hk0 : k = 0
      · subst hk0; simp [List.getElem?_eq_getElem h3]
      · have : 0 < k := Nat.pos_of_ne_zero hk0
        have hne : ¬ (1 + k = 1) := by omega
        simp [this, hne]
    · have h1b : k + 1 < curB.length := by omega
      simp [List.take_succ, List.getElem?_drop, List.getElem?_eq_getElem h1b, Nat.add_comm 1 k]
    · have h2b : k + 1 < curBData.length := by omega
      simp [List.take_succ, List.getElem?_drop, List.getElem?_eq_getElem h2b, Nat.add_comm 1 k]

theorem offset_vertices_eq (start : ℚ) (curB curBData : List sfVertex)
    (hlen : curB.length = curBData.length) :
    offset_vertices start curB.length curB curBData =
      ((curBData[1]?.map (fun d => d.position.x)).getD start, curB.tail, curBData.tail) := by
  unfold offset_vertices
  cases hn : curB.length with
  | zero =>
    have h1 : curB = [] := List.length_eq_zero.mp hn
    have h2 : curBData = [] := List.length_eq_zero.mp (by omega)
    subst h1; subst h2; simp
  | succ n =>
    have := offset_fold_eq start curB curBData hlen n (by omega)
    simp only [Nat.add_sub_cancel]
    rw [this]
    simp only [Prod.mk.injEq]
    refine ⟨?_, ?_, ?_⟩
    · by_cases hn0 : n = 0
      · subst hn0
        simp [List.getElem?_eq_none (by omega : curBData.length ≤ 1)]
      · simp [Nat.pos_of_ne_zero hn0]
    · rw [List.drop_one, List.take_of_length_le]
      simp [hn]
    · rw [List.drop_one, List.take_of_length_le]
      simp only [List.length_tail]; omega

/-! ### The position computed by `get_vertex_pos` -/

theorem get_vertex_pos_x (v : sfVertex) (a : sfVector2f) (s t r L : ℚ) :
    (get_vertex_pos v a s t r L).position.x = min ((t - s) * X_TILE_SIZE) a.x := by
  unfold get_vertex_pos get_vertex_y get_vertex_x
  by_cases h : (t - s) * X_TILE_SIZE ≥ a.x
  · simp [h, min_eq_right (ge_iff_le.mp h)]
  · simp [h, min_eq_left (le_of_lt (not_le.mp h))]

theorem get_vertex_pos_y (v : sfVertex) (a : sfVector2f) (s t r L : ℚ) :
    (get_vertex_pos v a s t r L).position.y = a.y - r * a.y / L := by
  unfold get_vertex_pos get_vertex_y get_vertex_x
  by_cases h : (t - s) * X_TILE_SIZE ≥ a.x
  · simp [h]
  · simp [h]

theorem get_vertex_pos_overflow (v : sfVertex) (a : sfVector2f) (s t r L : ℚ) :
    (get_vertex_pos v a s t r L).position.x ≥ a.x ↔ (t - s) * X_TILE_SIZE ≥ a.x := by
  rw [get_vertex_pos_x]
  simp [ge_iff_le, le_min_iff]

theorem relocate_vertex_projected (p a : sfVector2f) (s L : ℚ) (v d : sfVertex) :
    Projected p a s L d (relocate_vertex p a s L v d) := by
  unfold Projected relocate_vertex add_padding
  simp [get_vertex_pos_x, get_vertex_pos_y]

theorem forall₂_zipWith_right {α β : Type} (R : β → α → Prop) (f : α → β → α)
    (h : ∀ a b, R b (f a b)) :
    ∀ (l₁ : List α) (l₂ : List β), l₁.length = l₂.length → List.Forall₂ R l₂ (List.zipWith f l₁ l₂)
  | [], [], _ => List.Forall₂.nil
  | [], _ :: _, hl => by simp at hl
  | _ :: _, [], hl => by simp at hl
  | a :: l₁, b :: l₂, hl => by
    simp only [List.zipWith_cons_cons]
    exact List.Forall₂.cons (h a b) (forall₂_zipWith_right R f h l₁ l₂ (by simpa using hl))

theorem relocate_band_projected (p a : sfVector2f) (s L : ℚ) (k : ℕ) (band bandData : List sfVertex)
    (hlen : band.length = bandData.length) (hk : band.length ≤ k) :
    List.Forall₂ (Projected p a s L) bandData (relocate_band p a s L k band bandData) := by
  rw [relocate_band_eq p a s L k band bandData hlen hk]
  exact forall₂_zipWith_right _ _ (fun v d => relocate_vertex_projected p a s L v d) band bandData hlen

/-! ### Fields that the stages of `update` leave alone -/

@[simp] theorem relocate_vertices_padding (g : Graphics) (m n : ℕ) (L : ℚ) :
    (relocate_vertices g m n L).padding = g.padding := rfl
@[simp] theorem relocate_vertices_axisSize (g : Graphics) (m n : ℕ) (L : ℚ) :
    (relocate_vertices g m n L).axisSize = g.axisSize := rfl
@[simp] theorem relocate_vertices_startAxisTime (g : Graphics) (m n : ℕ) (L : ℚ) :
    (relocate_vertices g m n L).startAxisTime = g.startAxisTime := rfl
@[simp] theorem relocate_vertices_averageBandwithData (g : Graphics) (m n : ℕ) (L : ℚ) :
    (relocate_vertices g m n L).averageBandwithData = g.averageBandwithData := rfl
@[simp] theorem relocate_vertices_currentBandwithData (g : Graphics) (m n : ℕ) (L : ℚ) :
    (relocate_vertices g m n L).currentBandwithData = g.currentBandwithData := rfl
@[simp] theorem relocate_vertices_averageBandwith_length (g : Graphics) (m n : ℕ) (L : ℚ) :
    (relocate_vertices g m n L).averageBandwith.length = g.averageBandwith.length := by
  simp [relocate_vertices, relocate_band_length]
@[simp] theorem relocate_vertices_currentBandwith_length (g : Graphics) (m n : ℕ) (L : ℚ) :
    (relocate_vertices g m n L).currentBandwith.length = g.currentBandwith.length := by
  simp [relocate_vertices, relocate_band_length]

theorem raise_limit_limitSpeed (self : Application) (m n : ℕ) (rate : ℚ) :
    (raise_limit self m n rate).limitSpeed = max self.limitSpeed rate := by
  unfold raise_limit
  by_cases h : rate ≥ self.limitSpeed
  · simp [h, max_eq_right (ge_iff_le.mp h)]
  · simp [h, max_eq_left (le_of_lt (not_le.mp h))]

@[simp] theorem raise_limit_dataQueue (self : Application) (m n : ℕ) (rate : ℚ) :
    (raise_limit self m n rate).dataQueue = self.dataQueue := by
  unfold raise_limit; split <;> rfl
@[simp] theorem raise_limit_padding (self : Application) (m n : ℕ) (rate : ℚ) :
    (raise_limit self m n rate).graphics.padding = self.graphics.padding := by
  unfold raise_limit; split <;> rfl
@[simp] theorem raise_limit_axisSize (self : Application) (m n : ℕ) (rate : ℚ) :
    (raise_limit self m n rate).graphics.axisSize = self.graphics.axisSize := by
  unfold raise_limit; split <;> rfl
@[simp] theorem raise_limit_startAxisTime (self : Application) (m n : ℕ) (rate : ℚ) :
    (raise_limit self m n rate).graphics.startAxisTime = self.graphics.startAxisTime := by
  unfold raise_limit; split <;> rfl
@[simp] theorem raise_limit_averageBandwithData (self : Application) (m n : ℕ) (rate : ℚ) :
    (raise_limit self m n rate).graphics.averageBandwithData = self.graphics.averageBandwithData := by
  unfold raise_limit; split <;> rfl
@[simp] theorem raise_limit_currentBandwithData (self : Application) (m n : ℕ) (rate : ℚ) :
    (raise_limit self m n rate).graphics.currentBandwithData = self.graphics.currentBandwithData := by
  unfold raise_limit; split <;> rfl
@[simp] theorem raise_limit_averageBandwith_length (self : Application) (m n : ℕ) (rate : ℚ) :
    (raise_limit self m n rate).graphics.averageBandwith.length =
      self.graphics.averageBandwith.length := by
  unfold raise_limit; split <;> simp
@[simp] theorem raise_limit_currentBandwith_length (self : Application) (m n : ℕ) (rate : ℚ) :
    (raise_limit self m n rate).graphics.currentBandwith.length =
      self.graphics.currentBandwith.length := by
  unfold raise_limit; split <;> simp

theorem relocate_vertices_projected (g : Graphics) (m n : ℕ) (L : ℚ)
    (h1 : g.averageBandwithData.length = g.averageBandwith.length)
    (h2 : g.currentBandwithData.length = g.currentBandwith.length)
    (hm : g.averageBandwith.length ≤ m) (hn : g.currentBandwith.length ≤ n) :
    AllProjected (relocate_vertices g m n L) g.startAxisTime L :=
  ⟨relocate_band_projected _ _ _ _ _ _ _ h1.symm hm,
   relocate_band_projected _ _ _ _ _ _ _ h2.symm hn⟩

theorem raise_limit_aligned (self : Application) (m n : ℕ) (rate : ℚ)
    (h : Aligned self.graphics) : Aligned (raise_limit self m n rate).graphics := by
  unfold Aligned at *
  simpa using h

theorem raise_limit_raised (self : Application) (m n : ℕ) (rate : ℚ)
    (h : Aligned self.graphics) (hm : self.graphics.averageBandwith.length ≤ m)
    (hn : self.graphics.currentBandwith.length ≤ n) (hr : rate ≥ self.limitSpeed) :
    AllProjected (raise_limit self m n rate).graphics self.graphics.startAxisTime rate := by
  unfold raise_limit
  rw [if_pos hr]
  exact relocate_vertices_projected _ _ _ _ h.1 h.2.1 hm hn

theorem raise_limit_unchanged (self : Application) (m n : ℕ) (rate : ℚ)
    (hr : ¬ rate ≥ self.limitSpeed) : raise_limit self m n rate = self := by
  unfold raise_limit
  rw [if_neg hr]

/-! ### The two checks together -/

theorem update_limit_limitSpeed (self : Application) (m n : ℕ) (data : VertexData) :
    (update_limit self m n data).limitSpeed =
      max (max self.limitSpeed data.speed) data.lastSecondSpeed := by
  simp [update_limit, raise_limit_limitSpeed]

@[simp] theorem update_limit_dataQueue (self : Application) (m n : ℕ) (data : VertexData) :
    (update_limit self m n data).dataQueue = self.dataQueue := by simp [update_limit]
@[simp] theorem update_limit_padding (self : Application) (m n : ℕ) (data : VertexData) :
    (update_limit self m n data).graphics.padding = self.graphics.padding := by
  simp [update_limit]
@[simp] theorem update_limit_axisSize (self : Application) (m n : ℕ) (data : VertexData) :
    (update_limit self m n data).graphics.axisSize = self.graphics.axisSize := by
  simp [update_limit]
@[simp] theorem update_limit_startAxisTime (self : Application) (m n : ℕ) (data : VertexData) :
    (update_limit self m n data).graphics.startAxisTime = self.graphics.startAxisTime := by
  simp [update_limit]
@[simp] theorem update_limit_averageBandwithData (self : Application) (m n : ℕ)
    (data : VertexData) :
    (update_limit self m n data).graphics.averageBandwithData =
      self.graphics.averageBandwithData := by simp [update_limit]
@[simp] theorem update_limit_currentBandwithData (self : Application) (m n : ℕ)
    (data : VertexData) :
    (update_limit self m n data).graphics.currentBandwithData =
      self.graphics.currentBandwithData := by simp [update_limit]
@[simp] theorem update_limit_averageBandwith_length (self : Application) (m n : ℕ)
    (data : VertexData) :
    (update_limit self m n data).graphics.averageBandwith.length =
      self.graphics.averageBandwith.length := by simp [update_limit]
@[simp] theorem update_limit_currentBandwith_length (self : Application) (m n : ℕ)
    (data : VertexData) :
    (update_limit self m n data).graphics.currentBandwith.length =
      self.graphics.currentBandwith.length := by simp [update_limit]

theorem update_limit_aligned (self : Application) (m n : ℕ) (data : VertexData)
    (h : Aligned self.graphics) : Aligned (update_limit self m n data).graphics :=
  raise_limit_aligned _ _ _ _ (raise_limit_aligned _ _ _ _ h)

/-- When one of the two checks fires, every vertex is recomputed for the final ceiling. -/
theorem update_limit_raised (self : Application) (m n : ℕ) (data : VertexData)
    (h : Aligned self.graphics) (hm : self.graphics.averageBandwith.length ≤ m)
    (hn : self.graphics.currentBandwith.length ≤ n)
    (hr : data.speed ≥ self.limitSpeed ∨ data.lastSecondSpeed ≥ self.limitSpeed) :
    AllProjected (update_limit self m n data).graphics self.graphics.startAxisTime
      (update_limit self m n data).limitSpeed := by
  by_cases h2 : data.lastSecondSpeed ≥ (raise_limit self m n data.speed).limitSpeed
  · have := raise_limit_raised (raise_limit self m n data.speed) m n data.lastSecondSpeed
      (raise_limit_aligned _ _ _ _ h) (by simpa using hm) (by simpa using hn) h2
    have hL : (update_limit self m n data).limitSpeed = data.lastSecondSpeed := by
      unfold update_limit
      rw [raise_limit_limitSpeed]
      exact max_eq_right h2
    rw [hL]
    simpa [update_limit] using this
  · have h1 : data.speed ≥ self.limitSpeed := by
      rcases hr with hr | hr
      · exact hr
      · by_contra hc
        rw [raise_limit_unchanged self m n data.speed hc] at h2
        exact h2 hr
    have hu : update_limit self m n data = raise_limit self m n data.speed := by
      unfold update_limit
      exact raise_limit_unchanged _ _ _ _ h2
    rw [hu, raise_limit_limitSpeed, max_eq_right h1]
    exact raise_limit_raised self m n data.speed h hm hn h1

theorem update_limit_unchanged (self : Application) (m n : ℕ) (data : VertexData)
    (hr : ¬ (data.speed ≥ self.limitSpeed ∨ data.lastSecondSpeed ≥ self.limitSpeed)) :
    update_limit self m n data = self := by
  push_neg at hr
  unfold update_limit
  rw [raise_limit_unchanged self m n data.speed (not_le.mpr hr.1)]
  exact raise_limit_unchanged self m n _ (not_le.mpr hr.2)

/-! ### The overflow branch -/

theorem rebuild_series_eq (g : Graphics) (h : Aligned g) :
    rebuild_series g g.averageBandwith.length =
      { g with
        startAxisTime := rebuilt_start g,
        averageBandwith := g.averageBandwith.tail,
        averageBandwithData := g.averageBandwithData.tail,
        currentBandwith := g.currentBandwith.tail,
        currentBandwithData := g.currentBandwithData.tail } := by
  have e1 := offset_vertices_eq g.startAxisTime g.averageBandwith g.averageBandwithData h.1.symm
  have e2 : ∀ s, offset_vertices s g.averageBandwith.length g.currentBandwith
      g.currentBandwithData =
      ((g.currentBandwithData[1]?.map (fun d => d.position.x)).getD s,
        g.currentBandwith.tail, g.currentBandwithData.tail) := by
    intro s
    rw [h.2.2]
    exact offset_vertices_eq s g.currentBandwith g.currentBandwithData h.2.1.symm
  simp only [rebuild_series, e1, e2, rebuilt_start]

@[simp] theorem update_overflow_limitSpeed (self : Application) (m n : ℕ) :
    (update_overflow self m n).limitSpeed = self.limitSpeed := rfl
@[simp] theorem update_overflow_dataQueue (self : Application) (m n : ℕ) :
    (update_overflow self m n).dataQueue = self.dataQueue := rfl
@[simp] theorem update_overflow_padding (self : Application) (m n : ℕ) :
    (update_overflow self m n).graphics.padding = self.graphics.padding := rfl
@[simp] theorem update_overflow_axisSize (self : Application) (m n : ℕ) :
    (update_overflow self m n).graphics.axisSize = self.graphics.axisSize := rfl

theorem update_overflow_startAxisTime (self : Application) (m n : ℕ)
    (h : Aligned self.graphics) (hm : m = self.graphics.averageBandwith.length) :
    (update_overflow self m n).graphics.startAxisTime = rebuilt_start self.graphics := by
  subst hm
  simp [update_overflow, rebuild_series_eq _ h]

theorem update_overflow_averageBandwithData (self : Application) (m n : ℕ)
    (h : Aligned self.graphics) (hm : m = self.graphics.averageBandwith.length) :
    (update_overflow self m n).graphics.averageBandwithData =
      self.graphics.averageBandwithData.tail := by
  subst hm
  simp [update_overflow, rebuild_series_eq _ h]

theorem update_overflow_currentBandwithData (self : Application) (m n : ℕ)
    (h : Aligned self.graphics) (hm : m = self.graphics.averageBandwith.length) :
    (update_overflow self m n).graphics.currentBandwithData =
      self.graphics.currentBandwithData.tail := by
  subst hm
  simp [update_overflow, rebuild_series_eq _ h]

theorem update_overflow_projected (self : Application) (m n : ℕ) (h : Aligned self.graphics)
    (hm : m = self.graphics.averageBandwith.length)
    (hn : n = self.graphics.currentBandwith.length) :
    AllProjected (update_overflow self m n).graphics (rebuilt_start self.graphics)
      self.limitSpeed := by
  subst hm
  subst hn
  have := relocate_vertices_projected
    { self.graphics with
        startAxisTime := rebuilt_start self.graphics,
        averageBandwith := self.graphics.averageBandwith.tail,
        averageBandwithData := self.graphics.averageBandwithData.tail,
        currentBandwith := self.graphics.currentBandwith.tail,
        currentBandwithData := self.graphics.currentBandwithData.tail }
    self.graphics.averageBandwith.length self.graphics.currentBandwith.length self.limitSpeed
    (by simp [h.1]) (by simp [h.2.1]) (by simp) (by simp)
  simpa [update_overflow, rebuild_series_eq _ h] using this

theorem update_overflow_aligned (self : Application) (m n : ℕ) (h : Aligned self.graphics)
    (hm : m = self.graphics.averageBandwith.length) :
    Aligned (update_overflow self m n).graphics := by
  subst hm
  have e := rebuild_series_eq _ h
  obtain ⟨h1, h2, h3⟩ := h
  unfold Aligned
  simp only [update_overflow, e, relocate_vertices_averageBandwith_length,
    relocate_vertices_currentBandwith_length, relocate_vertices_averageBandwithData,
    relocate_vertices_currentBandwithData, List.length_tail]
  omega

/-! ### `update_sample` as its three stages -/

theorem update_sample_eq (self : Application) (data : VertexData) :
    update_sample self data =
      { before_append self data with graphics :=
        { (before_append self data).graphics with
          averageBandwith := (before_append self data).graphics.averageBandwith ++
            [new_vertex self data data.speed sfColor.sfRed],
          averageBandwithData := (before_append self data).graphics.averageBandwithData ++
            [⟨⟨float_of_double data.time, float_of_double data.speed⟩,
              sfColor.sfTransparent⟩],
          currentBandwith := (before_append self data).graphics.currentBandwith ++
            [new_vertex self data data.lastSecondSpeed sfColor.sfYellow],
          currentBandwithData := (before_append self data).graphics.currentBandwithData ++
            [⟨⟨float_of_double data.time, float_of_double data.lastSecondSpeed⟩,
              sfColor.sfTransparent⟩] } } := by
  unfold update_sample before_append new_vertex
  simp only [get_vertex_pos_overflow, update_limit_axisSize, update_limit_startAxisTime,
    update_limit_limitSpeed, update_limit_padding]
  by_cases h : overflows self data
  · have h' := h
    unfold overflows at h'
    simp [h, h']
  · have h' := h
    unfold overflows at h'
    simp [h, h']

/-! ### `update` and runs of `update` -/

theorem update_nil (self : Application) (h : self.dataQueue = []) : update self = self := by
  unfold update
  rw [h]
  rfl

theorem update_cons (self : Application) (data : VertexData) (rest : List VertexData)
    (h : self.dataQueue = data :: rest) :
    update self = update_sample { self with dataQueue := rest } data := by
  unfold update
  rw [h]
  rfl

theorem updates_succ (k : ℕ) (self : Application) :
    updates (k + 1) self = update (updates k self) := by
  induction k generalizing self with
  | zero => rfl
  | succ k ih =>
    show updates (k + 1) (update self) = update (updates k (update self))
    exact ih (update self)

theorem updates_invariant (P : Application → Prop) (hstep : ∀ s, P s → P (update s))
    (k : ℕ) (self : Application) (h : P self) : P (updates k self) := by
  induction k with
  | zero => exact h
  | succ k ih =>
    rw [updates_succ]
    exact hstep _ ih

@[simp] theorem before_append_limitSpeed (self : Application) (data : VertexData) :
    (before_append self data).limitSpeed =
      max (max self.limitSpeed data.speed) data.lastSecondSpeed := by
  unfold before_append
  split <;> simp [update_limit_limitSpeed]

@[simp] theorem before_append_dataQueue (self : Application) (data : VertexData) :
    (before_append self data).dataQueue = self.dataQueue := by
  unfold before_append
  split <;> simp

@[simp] theorem before_append_padding (self : Application) (data : VertexData) :
    (before_append self data).graphics.padding = self.graphics.padding := by
  unfold before_append
  split <;> simp

@[simp] theorem before_append_axisSize (self : Application) (data : VertexData) :
    (before_append self data).graphics.axisSize = self.graphics.axisSize := by
  unfold before_append
  split <;> simp

theorem before_append_aligned (self : Application) (data : VertexData)
    (h : Aligned self.graphics) : Aligned (before_append self data).graphics := by
  unfold before_append
  have h2 := update_limit_aligned self self.graphics.averageBandwith.length
    self.graphics.currentBandwith.length data h
  split
  · exact update_overflow_aligned _ _ _ h2 (by simp)
  · exact h2

theorem update_sample_limitSpeed (self : Application) (data : VertexData) :
    (update_sample self data).limitSpeed =
      max (max self.limitSpeed data.speed) data.lastSecondSpeed := by
  rw [update_sample_eq]
  simp

theorem update_sample_aligned (self : Application) (data : VertexData)
    (h : Aligned self.graphics) : Aligned (update_sample self data).graphics := by
  have := before_append_aligned self data h
  rw [update_sample_eq]
  unfold Aligned at *
  simp only [List.length_append, List.length_singleton]
  omega

theorem update_aligned (self : Application) (h : Aligned self.graphics) :
    Aligned (update self).graphics := by
  cases hq : self.dataQueue with
  | nil => rw [update_nil self hq]; exact h
  | cons data rest =>
    rw [update_cons self data rest hq]
    exact update_sample_aligned _ data h

theorem application_init_aligned (desktop : sfVideoMode) (samples : List VertexData) :
    Aligned (application_init desktop samples).graphics := by
  simp [Aligned, application_init, init_graphics]

theorem updates_aligned (desktop : sfVideoMode) (samples : List VertexData) (k : ℕ) :
    Aligned (updates k (application_init desktop samples)).graphics :=
  updates_invariant (fun s => Aligned s.graphics) update_aligned k _
    (application_init_aligned desktop samples)

theorem update_limitSpeed_le (self : Application) : self.limitSpeed ≤ (update self).limitSpeed := by
  cases hq : self.dataQueue with
  | nil => rw [update_nil self hq]
  | cons data rest =>
    rw [update_cons self data rest hq, update_sample_limitSpeed]
    exact le_trans (le_max_left _ _) (le_max_left _ _)

theorem updates_add (j m : ℕ) (self : Application) :
    updates (j + m) self = updates m (updates j self) := by
  induction m with
  | zero => rfl
  | succ m ih => rw [← Nat.add_assoc, updates_succ, updates_succ, ih]

theorem updates_limitSpeed_le (k : ℕ) (self : Application) :
    self.limitSpeed ≤ (updates k self).limitSpeed := by
  induction k with
  | zero => exact le_refl _
  | succ k ih =>
    rw [updates_succ]
    exact le_trans ih (update_limitSpeed_le _)

/-! ### C3 -/

/-- C3: for every state and every consumed sample, the ceiling `limitSpeed` after
`update` is the maximum of the old ceiling, `data.speed` and `data.lastSecondSpeed`;
it is the larger of the two rates when either is at least the old ceiling and is
unchanged otherwise; along any run of `update` calls the ceiling never decreases. -/
theorem limitSpeed_running_max (self : Application) :
    (∀ data rest, self.dataQueue = data :: rest →
      (update self).limitSpeed = max (max self.limitSpeed data.speed) data.lastSecondSpeed ∧
      ((data.speed ≥ self.limitSpeed ∨ data.lastSecondSpeed ≥ self.limitSpeed) →
        (update self).limitSpeed = max data.speed data.lastSecondSpeed) ∧
      ((data.speed < self.limitSpeed ∧ data.lastSecondSpeed < self.limitSpeed) →
        (update self).limitSpeed = self.limitSpeed)) ∧
    (∀ j k, j ≤ k → (updates j self).limitSpeed ≤ (updates k self).limitSpeed) := by
  refine ⟨?_, ?_⟩
  · intro data rest hq
    have e : (update self).limitSpeed =
        max (max self.limitSpeed data.speed) data.lastSecondSpeed := by
      rw [update_cons self data rest hq, update_sample_limitSpeed]
    refine ⟨e, ?_, ?_⟩
    · intro hr
      rw [e]
      rcases hr with hr | hr
      · rw [max_eq_right hr]
      · rw [max_assoc, max_eq_right (le_trans hr (le_max_right _ _))]
    · rintro ⟨h1, h2⟩
      rw [e, max_eq_left (le_of_lt h1), max_eq_left (le_of_lt h2)]
  · intro j k hjk
    obtain ⟨m, rfl⟩ := Nat.exists_eq_add_of_le hjk
    rw [updates_add]
    exact updates_limitSpeed_le m _

/-! ### The state before the append, branch by branch -/

theorem before_append_overflow (self : Application) (data : VertexData)
    (h : Aligned self.graphics) (ho : overflows self data) :
    (before_append self data).graphics.startAxisTime = rebuilt_start self.graphics ∧
    (before_append self data).graphics.averageBandwithData =
      self.graphics.averageBandwithData.tail ∧
    (before_append self data).graphics.currentBandwithData =
      self.graphics.currentBandwithData.tail ∧
    AllProjected (before_append self data).graphics (rebuilt_start self.graphics)
      (max (max self.limitSpeed data.speed) data.lastSecondSpeed) := by
  have h2 := update_limit_aligned self self.graphics.averageBandwith.length
    self.graphics.currentBandwith.length data h
  unfold before_append
  simp only [if_pos ho]
  refine ⟨?_, ?_, ?_, ?_⟩
  · rw [update_overflow_startAxisTime _ _ _ h2 (by simp)]
    simp [rebuilt_start]
  · rw [update_overflow_averageBandwithData _ _ _ h2 (by simp)]
    simp
  · rw [update_overflow_currentBandwithData _ _ _ h2 (by simp)]
    simp
  · have := update_overflow_projected _ self.graphics.averageBandwith.length
      self.graphics.currentBandwith.length h2 (by simp) (by simp)
    simpa [rebuilt_start, update_limit_limitSpeed] using this

theorem before_append_no_overflow (self : Application) (data : VertexData)
    (ho : ¬ overflows self data) :
    before_append self data =
      update_limit self self.graphics.averageBandwith.length
        self.graphics.currentBandwith.length data := by
  unfold before_append
  simp only [if_neg ho]

/-! ### C10 -/

theorem mem_relocate_vertices_reads (g : Graphics) (m n : ℕ) (r : VertexRead) :
    r ∈ relocate_vertices_reads g m n ↔
      (∃ i < m, r = ⟨i, g.averageBandwith.length⟩ ∨ r = ⟨i, g.averageBandwithData.length⟩) ∨
      (∃ i < n, r = ⟨i, g.currentBandwith.length⟩ ∨ r = ⟨i, g.currentBandwithData.length⟩) := by
  simp [relocate_vertices_reads, List.mem_flatMap]

theorem relocate_vertices_reads_in_range (g : Graphics) (h : Aligned g) (r : VertexRead)
    (hr : r ∈ relocate_vertices_reads g g.averageBandwith.length g.currentBandwith.length) :
    r.index < r.count := by
  obtain ⟨h1, h2, -⟩ := h
  rw [mem_relocate_vertices_reads] at hr
  rcases hr with ⟨i, hi, rfl | rfl⟩ | ⟨i, hi, rfl | rfl⟩ <;> simp <;> omega

theorem update_reads_overflow (self : Application) (data : VertexData)
    (ho : overflows self data) :
    update_reads self data =
      raise_limit_reads self self.graphics.averageBandwith.length
        self.graphics.currentBandwith.length data.speed ++
      raise_limit_reads (raise_limit self self.graphics.averageBandwith.length
        self.graphics.currentBandwith.length data.speed) self.graphics.averageBandwith.length
        self.graphics.currentBandwith.length data.lastSecondSpeed ++
      update_overflow_reads (update_limit self self.graphics.averageBandwith.length
        self.graphics.currentBandwith.length data) self.graphics.averageBandwith.length
        self.graphics.currentBandwith.length := by
  unfold overflows at ho
  unfold update_reads
  simp only [get_vertex_pos_overflow, raise_limit_axisSize, raise_limit_startAxisTime]
  rw [if_pos ho]
  rfl

theorem update_reads_no_overflow (self : Application) (data : VertexData)
    (ho : ¬ overflows self data) :
    update_reads self data =
      raise_limit_reads self self.graphics.averageBandwith.length
        self.graphics.currentBandwith.length data.speed ++
      raise_limit_reads (raise_limit self self.graphics.averageBandwith.length
        self.graphics.currentBandwith.length data.speed) self.graphics.averageBandwith.length
        self.graphics.currentBandwith.length data.lastSecondSpeed := by
  unfold overflows at ho
  unfold update_reads
  simp only [get_vertex_pos_overflow, raise_limit_axisSize, raise_limit_startAxisTime]
  rw [if_neg ho]
  simp

theorem raise_limit_reads_in_range (self : Application) (m n : ℕ) (rate : ℚ)
    (h : Aligned self.graphics) (hm : m = self.graphics.averageBandwith.length)
    (hn : n = self.graphics.currentBandwith.length) (r : VertexRead)
    (hr : r ∈ raise_limit_reads self m n rate) : r.index < r.count := by
  subst hm
  subst hn
  unfold raise_limit_reads at hr
  split at hr
  · exact relocate_vertices_reads_in_range _ h r hr
  · simp at hr

/-- C10, as the code has it: in a chart state whose four arrays have the same
non-zero count, a call of `update` that takes the overflow branch asks
`sfVertexArray_getVertex` for an index that is not below the count of the array:
the `relocate_vertices` pass after the rebuild still loops up to the count captured
at the start of the call.  A call that does not take the overflow branch asks only
for indices below the count. -/
theorem relocate_after_rebuild_reads_past_end (self : Application) (data : VertexData)
    (h : self.graphics.averageBandwithData.length = self.graphics.averageBandwith.length ∧
      self.graphics.currentBandwithData.length = self.graphics.currentBandwith.length ∧
      self.graphics.averageBandwith.length = self.graphics.currentBandwith.length) :
    (overflows self data → self.graphics.averageBandwith ≠ [] →
      ∃ r ∈ update_reads self data, r.count ≤ r.index) ∧
    (¬ overflows self data → ∀ r ∈ update_reads self data, r.index < r.count) := by
  have ha : Aligned self.graphics := h
  refine ⟨?_, ?_⟩
  · intro ho hne
    have h2 := update_limit_aligned self self.graphics.averageBandwith.length
      self.graphics.currentBandwith.length data ha
    have e := rebuild_series_eq _ h2
    rw [update_limit_averageBandwith_length] at e
    refine ⟨⟨self.graphics.averageBandwith.length - 1,
      self.graphics.averageBandwith.length - 1⟩, ?_, le_refl _⟩
    rw [update_reads_overflow self data ho]
    apply List.mem_append_right
    unfold update_overflow_reads
    apply List.mem_append_right
    rw [mem_relocate_vertices_reads, e]
    left
    refine ⟨self.graphics.averageBandwith.length - 1, ?_, Or.inl ?_⟩
    · have := List.length_pos.mpr hne
      omega
    · simp
  · intro ho r hr
    rw [update_reads_no_overflow self data ho] at hr
    rcases List.mem_append.mp hr with hr | hr
    · exact raise_limit_reads_in_range self _ _ _ ha rfl rfl r hr
    · exact raise_limit_reads_in_range _ _ _ _ (raise_limit_aligned _ _ _ _ ha)
        (by simp) (by simp) r hr

/-- C10 at a concrete state: a desktop of 1920 by 1080, one point at time 0 in the
chart and a sample at time 8 consumed. -/
theorem relocate_after_rebuild_reads_past_end_witness :
    ∃ r ∈ update_reads (updates 1 (application_init ⟨1920, 1080⟩ [⟨0, 10, 0, 10⟩]))
      ⟨8, 10, 0, 10⟩, r.count ≤ r.index :=
  (relocate_after_rebuild_reads_past_end
    (updates 1 (application_init ⟨1920, 1080⟩ [⟨0, 10, 0, 10⟩])) ⟨8, 10, 0, 10⟩
    (by decide!)).1 (by decide!) (by decide!)

/-- C10 at the failing input, evaluated: with one point in the chart, the call that
consumes the sample at time 8 reads index 0 of arrays that hold no vertex. -/
theorem update_reads_at_overflow :
    update_reads (updates 1 (application_init ⟨1920, 1080⟩ [⟨0, 10, 0, 10⟩])) ⟨8, 10, 0, 10⟩ =
      [⟨0, 0⟩, ⟨0, 0⟩, ⟨0, 0⟩, ⟨0, 0⟩] := by decide!

/-! ### `update_strict` -/

theorem update_strict_nil (self : Application) (h : self.dataQueue = []) :
    update_strict self = some self := by
  unfold update_strict
  rw [h]
  rfl

theorem update_strict_cons (self : Application) (data : VertexData) (rest : List VertexData)
    (h : self.dataQueue = data :: rest) :
    update_strict self =
      if ∀ r ∈ update_reads { self with dataQueue := rest } data, r.index < r.count then
        some (update_sample { self with dataQueue := rest } data)
      else none := by
  unfold update_strict
  rw [h]
  rfl

/-- Where `update_strict` has a state, it is the state `update` gives. -/
theorem update_strict_eq_some (self s : Application) (h : update_strict self = some s) :
    s = update self := by
  cases hq : self.dataQueue with
  | nil =>
    rw [update_strict_nil self hq] at h
    rw [update_nil self hq]
    exact (Option.some.inj h).symm
  | cons data rest =>
    rw [update_strict_cons self data rest hq] at h
    rw [update_cons self data rest hq]
    split at h
    · exact (Option.some.inj h).symm
    · exact absurd h (by simp)

theorem updates_strict_succ (k : ℕ) (self : Application) :
    updates_strict (k + 1) self = (updates_strict k self).bind update_strict := by
  induction k generalizing self with
  | zero =>
    show (update_strict self).bind (updates_strict 0) = (some self).bind update_strict
    cases h : update_strict self with
    | none => simp [h]
    | some s => simp [h, updates_strict]
  | succ k ih =>
    show (update_strict self).bind (updates_strict (k + 1)) =
      ((update_strict self).bind (updates_strict k)).bind update_strict
    cases h : update_strict self with
    | none => rfl
    | some s => exact ih s

/-- Where a run of `update_strict` has a state, it is the state the run of `update`
gives. -/
theorem updates_strict_eq_some (k : ℕ) (self s : Application)
    (h : updates_strict k self = some s) : s = updates k self := by
  induction k generalizing s with
  | zero => exact (Option.some.inj h).symm
  | succ k ih =>
    rw [updates_strict_succ] at h
    cases hk : updates_strict k self with
    | none => rw [hk] at h; exact absurd h (by simp)
    | some s1 =>
      rw [hk] at h
      rw [updates_succ, ← ih s1 hk]
      exact update_strict_eq_some s1 s h

/-- In a chart state whose four arrays have the same non-zero count, a call that takes
the overflow branch makes an access past the end. -/
theorem overflow_read_past_end (self : Application) (data : VertexData)
    (ha : Aligned self.graphics) (ho : overflows self data)
    (hne : self.graphics.averageBandwith ≠ []) :
    ∃ r ∈ update_reads self data, r.count ≤ r.index := by
  have h2 := update_limit_aligned self self.graphics.averageBandwith.length
    self.graphics.currentBandwith.length data ha
  have e := rebuild_series_eq _ h2
  rw [update_limit_averageBandwith_length] at e
  refine ⟨⟨self.graphics.averageBandwith.length - 1,
    self.graphics.averageBandwith.length - 1⟩, ?_, le_refl _⟩
  rw [update_reads_overflow self data ho]
  apply List.mem_append_right
  unfold update_overflow_reads
  apply List.mem_append_right
  rw [mem_relocate_vertices_reads, e]
  left
  refine ⟨self.graphics.averageBandwith.length - 1, ?_, Or.inl ?_⟩
  · have := List.length_pos.mpr hne
    omega
  · simp

/-- A call that does not take the overflow branch stays within the arrays. -/
theorem no_overflow_reads_in_range (self : Application) (data : VertexData)
    (ha : Aligned self.graphics) (ho : ¬ overflows self data) :
    ∀ r ∈ update_reads self data, r.index < r.count := by
  intro r hr
  rw [update_reads_no_overflow self data ho] at hr
  rcases List.mem_append.mp hr with hr | hr
  · exact raise_limit_reads_in_range self _ _ _ ha rfl rfl r hr
  · exact raise_limit_reads_in_range _ _ _ _ (raise_limit_aligned _ _ _ _ ha)
      (by simp) (by simp) r hr

theorem update_strict_overflow (self : Application) (data : VertexData)
    (rest : List VertexData) (ha : Aligned self.graphics) (hq : self.dataQueue = data :: rest)
    (ho : overflows self data) (hne : self.graphics.averageBandwith ≠ []) :
    update_strict self = none := by
  rw [update_strict_cons self data rest hq, if_neg]
  intro hall
  obtain ⟨r, hr, hle⟩ := overflow_read_past_end { self with dataQueue := rest } data ha ho hne
  exact absurd (hall r hr) (not_lt.mpr hle)

theorem update_strict_no_overflow (self : Application) (data : VertexData)
    (rest : List VertexData) (ha : Aligned self.graphics) (hq : self.dataQueue = data :: rest)
    (ho : ¬ overflows self data) :
    update_strict self = some (update self) := by
  rw [update_strict_cons self data rest hq, update_cons self data rest hq, if_pos]
  exact no_overflow_reads_in_range { self with dataQueue := rest } data ha ho

/-! ### Narrowing keeps the sign -/

theorem round_half_even_nonneg (r : ℚ) (h : 0 ≤ r) : 0 ≤ round_half_even r := by
  have hf : 0 ≤ ⌊r⌋ := Int.floor_nonneg.mpr h
  unfold round_half_even
  split
  · exact hf
  · split
    · omega
    · split
      · exact hf
      · omega

theorem float_of_double_nonneg (x : ℚ) (h : 0 ≤ x) : 0 ≤ float_of_double x := by
  unfold float_of_double
  split
  · exact le_refl _
  · have hu : (0 : ℚ) < (2 : ℚ) ^ (max (floor_log2 |x|) (-126) - 23) :=
      zpow_pos (by norm_num) _
    have hr := round_half_even_nonneg _ (div_nonneg h (le_of_lt hu))
    exact mul_nonneg (by exact_mod_cast hr) (le_of_lt hu)

/-! ### The fields `update_sample` leaves alone, and the raw points it stores -/

theorem update_sample_averageBandwithData (self : Application) (data : VertexData)
    (ha : Aligned self.graphics) :
    (update_sample self data).graphics.averageBandwithData =
      (if overflows self data then self.graphics.averageBandwithData.tail
        else self.graphics.averageBandwithData) ++
      [⟨⟨float_of_double data.time, float_of_double data.speed⟩, sfColor.sfTransparent⟩] := by
  rw [update_sample_eq]
  by_cases ho : overflows self data
  · simp [ho, (before_append_overflow self data ha ho).2.1]
  · simp [ho, before_append_no_overflow self data ho]

theorem update_sample_currentBandwithData (self : Application) (data : VertexData)
    (ha : Aligned self.graphics) :
    (update_sample self data).graphics.currentBandwithData =
      (if overflows self data then self.graphics.currentBandwithData.tail
        else self.graphics.currentBandwithData) ++
      [⟨⟨float_of_double data.time, float_of_double data.lastSecondSpeed⟩,
        sfColor.sfTransparent⟩] := by
  rw [update_sample_eq]
  by_cases ho : overflows self data
  · simp [ho, (before_append_overflow self data ha ho).2.2.1]
  · simp [ho, before_append_no_overflow self data ho]

@[simp] theorem update_sample_padding (self : Application) (data : VertexData) :
    (update_sample self data).graphics.padding = self.graphics.padding := by
  rw [update_sample_eq]; simp

@[simp] theorem update_sample_axisSize (self : Application) (data : VertexData) :
    (update_sample self data).graphics.axisSize = self.graphics.axisSize := by
  rw [update_sample_eq]; simp

@[simp] theorem update_sample_dataQueue (self : Application) (data : VertexData) :
    (update_sample self data).dataQueue = self.dataQueue := by
  rw [update_sample_eq]; simp

theorem update_padding (self : Application) : (update self).graphics.padding = self.graphics.padding := by
  cases hq : self.dataQueue with
  | nil => rw [update_nil self hq]
  | cons data rest => rw [update_cons self data rest hq]; simp

theorem update_axisSize (self : Application) :
    (update self).graphics.axisSize = self.graphics.axisSize := by
  cases hq : self.dataQueue with
  | nil => rw [update_nil self hq]
  | cons data rest => rw [update_cons self data rest hq]; simp

theorem updates_axisSize (k : ℕ) (self : Application) :
    (updates k self).graphics.axisSize = self.graphics.axisSize := by
  induction k with
  | zero => rfl
  | succ k ih => rw [updates_succ, update_axisSize, ih]

theorem mem_of_mem_ite_tail {α : Type} {c : Prop} [Decidable c] {l : List α} {a : α}
    (h : a ∈ (if c then l.tail else l)) : a ∈ l := by
  split at h
  · exact List.mem_of_mem_tail h
  · exact h

theorem forall₂_exists_left {α β : Type} {R : α → β → Prop} {l₁ : List α} {l₂ : List β}
    (h : List.Forall₂ R l₁ l₂) {b : β} (hb : b ∈ l₂) : ∃ a ∈ l₁, R a b := by
  induction h with
  | nil => simp at hb
  | cons hab _ ih =>
    rcases List.mem_cons.mp hb with rfl | hb
    · exact ⟨_, List.mem_cons_self _ _, hab⟩
    · obtain ⟨a, ha, hR⟩ := ih hb
      exact ⟨a, List.mem_cons_of_mem _ ha, hR⟩

theorem forall₂_imp_mem {α β : Type} {R S : α → β → Prop} {l₁ : List α} {l₂ : List β}
    (h : List.Forall₂ R l₁ l₂) (himp : ∀ a ∈ l₁, ∀ b, R a b → S a b) : List.Forall₂ S l₁ l₂ := by
  induction h with
  | nil => exact List.Forall₂.nil
  | cons hab _ ih =>
    exact List.Forall₂.cons (himp _ (List.mem_cons_self _ _) _ hab)
      (ih (fun a ha b hR => himp a (List.mem_cons_of_mem _ ha) b hR))

theorem forall₂_concat {α β : Type} {R : α → β → Prop} {l₁ : List α} {l₂ : List β} {a : α} {b : β}
    (h : List.Forall₂ R l₁ l₂) (hab : R a b) : List.Forall₂ R (l₁ ++ [a]) (l₂ ++ [b]) :=
  List.rel_append h (List.Forall₂.cons hab List.Forall₂.nil)

/-! ### The Y coordinate of a vertex -/

theorem new_vertex_y (self : Application) (data : VertexData) (rate : ℚ) (c : sfColor) :
    (new_vertex self data rate c).position.y =
      self.graphics.axisSize.y - rate * self.graphics.axisSize.y /
        (max (max self.limitSpeed data.speed) data.lastSecondSpeed) + self.graphics.padding.y := by
  simp [new_vertex, add_padding, get_vertex_pos_y]

/-- A Y coordinate projected from a non-negative value is not below the bottom edge,
and not above the top edge when the value is at most the ceiling. -/
theorem projected_y_bounds (a p r L y : ℚ) (hy : y = a - r * a / L + p) (hL : 0 < L)
    (ha : 0 ≤ a) (hr : 0 ≤ r) : y ≤ p + a ∧ (r ≤ L → p ≤ y) := by
  have e : r * a / L = a * (r / L) := by ring
  have h0 : 0 ≤ a * (r / L) := mul_nonneg ha (div_nonneg hr (le_of_lt hL))
  refine ⟨by rw [hy, e]; linarith, ?_⟩
  intro hle
  have h1 : a * (r / L) ≤ a * 1 :=
    mul_le_mul_of_nonneg_left ((div_le_one hL).mpr hle) ha
  rw [hy, e]
  linarith

/-- A vertex of the state before the append is a vertex of the old state or the
projection of an old raw point for the new ceiling. -/
theorem before_append_vertex (self : Application) (data : VertexData)
    (ha : Aligned self.graphics) :
    (∀ v ∈ (before_append self data).graphics.averageBandwith,
      v ∈ self.graphics.averageBandwith ∨
      ∃ d ∈ self.graphics.averageBandwithData, ∃ s,
        Projected self.graphics.padding self.graphics.axisSize s
          (max (max self.limitSpeed data.speed) data.lastSecondSpeed) d v) ∧
    (∀ v ∈ (before_append self data).graphics.currentBandwith,
      v ∈ self.graphics.currentBandwith ∨
      ∃ d ∈ self.graphics.currentBandwithData, ∃ s,
        Projected self.graphics.padding self.graphics.axisSize s
          (max (max self.limitSpeed data.speed) data.lastSecondSpeed) d v) := by
  by_cases ho : overflows self data
  · obtain ⟨-, e1, e2, hp⟩ := before_append_overflow self data ha ho
    simp only [AllProjected, before_append_padding, before_append_axisSize, e1, e2] at hp
    refine ⟨fun v hv => Or.inr ?_, fun v hv => Or.inr ?_⟩
    · obtain ⟨d, hd, hR⟩ := forall₂_exists_left hp.1 hv
      exact ⟨d, List.mem_of_mem_tail hd, _, hR⟩
    · obtain ⟨d, hd, hR⟩ := forall₂_exists_left hp.2 hv
      exact ⟨d, List.mem_of_mem_tail hd, _, hR⟩
  · rw [before_append_no_overflow self data ho]
    by_cases hr : data.speed ≥ self.limitSpeed ∨ data.lastSecondSpeed ≥ self.limitSpeed
    · have hp := update_limit_raised self _ _ data ha (le_refl _) (le_refl _) hr
      simp only [AllProjected, update_limit_padding, update_limit_axisSize,
        update_limit_limitSpeed, update_limit_averageBandwithData,
        update_limit_currentBandwithData] at hp
      refine ⟨fun v hv => Or.inr ?_, fun v hv => Or.inr ?_⟩
      · obtain ⟨d, hd, hR⟩ := forall₂_exists_left hp.1 hv
        exact ⟨d, hd, _, hR⟩
      · obtain ⟨d, hd, hR⟩ := forall₂_exists_left hp.2 hv
        exact ⟨d, hd, _, hR⟩
    · rw [update_limit_unchanged self _ _ data hr]
      exact ⟨fun v hv => Or.inl hv, fun v hv => Or.inl hv⟩

/-- In the state before the append, every vertex whose stored value is at most the new
ceiling is not above the top edge. -/
theorem before_append_belowTop (self : Application) (data : VertexData) (h : PlotInv self)
    (hA : 0 ≤ self.graphics.axisSize.y) :
    AllBelowTop (before_append self data).graphics
      (max (max self.limitSpeed data.speed) data.lastSecondSpeed) := by
  have hL : 0 < max (max self.limitSpeed data.speed) data.lastSecondSpeed :=
    lt_of_lt_of_le h.limit_pos (le_trans (le_max_left _ _) (le_max_left _ _))
  have key : ∀ (s : ℚ) (l₁ l₂ : List sfVertex), (∀ d ∈ l₁, 0 ≤ d.position.y) →
      List.Forall₂ (Projected self.graphics.padding self.graphics.axisSize s
        (max (max self.limitSpeed data.speed) data.lastSecondSpeed)) l₁ l₂ →
      List.Forall₂ (BelowTop self.graphics.padding
        (max (max self.limitSpeed data.speed) data.lastSecondSpeed)) l₁ l₂ := by
    intro s l₁ l₂ hn hp
    refine forall₂_imp_mem hp ?_
    intro d hd v hR
    exact (projected_y_bounds _ _ _ _ _ hR.2 hL hA (hn d hd)).2
  by_cases ho : overflows self data
  · obtain ⟨-, e1, e2, hp⟩ := before_append_overflow self data h.aligned ho
    simp only [AllProjected, before_append_padding, before_append_axisSize, e1, e2] at hp
    unfold AllBelowTop
    rw [before_append_padding, e1, e2]
    exact ⟨key _ _ _ (fun d hd => h.nonneg.1 d
        (List.mem_append_left _ (List.mem_of_mem_tail hd))) hp.1,
      key _ _ _ (fun d hd => h.nonneg.1 d
        (List.mem_append_right _ (List.mem_of_mem_tail hd))) hp.2⟩
  · rw [before_append_no_overflow self data ho]
    by_cases hr : data.speed ≥ self.limitSpeed ∨ data.lastSecondSpeed ≥ self.limitSpeed
    · have hp := update_limit_raised self _ _ data h.aligned (le_refl _) (le_refl _) hr
      simp only [AllProjected, update_limit_padding, update_limit_axisSize,
        update_limit_limitSpeed, update_limit_averageBandwithData,
        update_limit_currentBandwithData] at hp
      unfold AllBelowTop
      rw [update_limit_padding, update_limit_averageBandwithData,
        update_limit_currentBandwithData]
      exact ⟨key _ _ _ (fun d hd => h.nonneg.1 d (List.mem_append_left _ hd)) hp.1,
        key _ _ _ (fun d hd => h.nonneg.1 d (List.mem_append_right _ hd)) hp.2⟩
    · rw [update_limit_unchanged self _ _ data hr]
      push_neg at hr
      rw [max_eq_left (le_of_lt hr.1), max_eq_left (le_of_lt hr.2)]
      exact h.top hA

theorem update_sample_plotInv (self : Application) (data : VertexData) (h : PlotInv self)
    (hdata : 0 ≤ data.speed ∧ 0 ≤ data.lastSecondSpeed) :
    PlotInv (update_sample self data) := by
  have hL : 0 < max (max self.limitSpeed data.speed) data.lastSecondSpeed :=
    lt_of_lt_of_le h.limit_pos (le_trans (le_max_left _ _) (le_max_left _ _))
  refine ⟨update_sample_aligned self data h.aligned, ?_, ⟨?_, ?_⟩, ?_, ?_⟩
  · rw [update_sample_limitSpeed]
    exact hL
  · intro d hmem
    rw [update_sample_averageBandwithData self data h.aligned,
      update_sample_currentBandwithData self data h.aligned] at hmem
    simp only [List.mem_append, List.mem_singleton] at hmem
    rcases hmem with (hm | hm) | (hm | hm)
    · exact h.nonneg.1 d (List.mem_append_left _ (mem_of_mem_ite_tail hm))
    · subst hm; exact float_of_double_nonneg _ hdata.1
    · exact h.nonneg.1 d (List.mem_append_right _ (mem_of_mem_ite_tail hm))
    · subst hm; exact float_of_double_nonneg _ hdata.2
  · intro d hmem
    rw [update_sample_dataQueue] at hmem
    exact h.nonneg.2 d hmem
  · rw [update_sample_axisSize]
    intro hA
    have hold := h.bottom hA
    obtain ⟨hb1, hb2⟩ := before_append_vertex self data h.aligned
    unfold AboveBottom
    rw [update_sample_padding, update_sample_axisSize, update_sample_eq]
    intro v hv
    simp only [List.mem_append, List.mem_singleton] at hv
    rcases hv with (hv | hv) | (hv | hv)
    · rcases hb1 v hv with hv | ⟨d, hd, s, hR⟩
      · exact hold v (List.mem_append_left _ hv)
      · exact (projected_y_bounds _ _ _ _ _ hR.2 hL hA
          (h.nonneg.1 d (List.mem_append_left _ hd))).1
    · subst hv
      exact (projected_y_bounds _ _ _ _ _ (new_vertex_y self data _ _) hL hA hdata.1).1
    · rcases hb2 v hv with hv | ⟨d, hd, s, hR⟩
      · exact hold v (List.mem_append_right _ hv)
      · exact (projected_y_bounds _ _ _ _ _ hR.2 hL hA
          (h.nonneg.1 d (List.mem_append_right _ hd))).1
    · subst hv
      exact (projected_y_bounds _ _ _ _ _ (new_vertex_y self data _ _) hL hA hdata.2).1
  · rw [update_sample_axisSize]
    intro hA
    obtain ⟨ht1, ht2⟩ := before_append_belowTop self data h hA
    unfold AllBelowTop
    rw [update_sample_padding, update_sample_limitSpeed, update_sample_eq]
    simp only [before_append_padding] at ht1 ht2
    exact ⟨forall₂_concat ht1 (fun _ =>
        (projected_y_bounds _ _ _ _ _ (new_vertex_y self data _ _) hL hA hdata.1).2
          (le_trans (le_max_right _ _) (le_max_left _ _))),
      forall₂_concat ht2 (fun _ =>
        (projected_y_bounds _ _ _ _ _ (new_vertex_y self data _ _) hL hA hdata.2).2
          (le_max_right _ _))⟩

theorem update_plotInv (self : Application) (h : PlotInv self) : PlotInv (update self) := by
  cases hq : self.dataQueue with
  | nil => rw [update_nil self hq]; exact h
  | cons data rest =>
    rw [update_cons self data rest hq]
    have hp : PlotInv { self with dataQueue := rest } :=
      ⟨h.aligned, h.limit_pos,
        ⟨h.nonneg.1, fun d hd => h.nonneg.2 d (by rw [hq]; exact List.mem_cons_of_mem _ hd)⟩,
        h.bottom, h.top⟩
    exact update_sample_plotInv _ data hp (h.nonneg.2 data (by rw [hq]; exact List.mem_cons_self _ _))

theorem application_init_plotInv (desktop : sfVideoMode) (samples : List VertexData)
    (hrates : ∀ d ∈ samples, 0 ≤ d.speed ∧ 0 ≤ d.lastSecondSpeed) :
    PlotInv (application_init desktop samples) :=
  ⟨application_init_aligned desktop samples, by simp [application_init],
    ⟨by simp [application_init, init_graphics], hrates⟩,
    fun _ => by simp [AboveBottom, application_init, init_graphics],
    fun _ => by simp [AllBelowTop, application_init, init_graphics]⟩

theorem updates_plotInv (desktop : sfVideoMode) (samples : List VertexData) (k : ℕ)
    (hrates : ∀ d ∈ samples, 0 ≤ d.speed ∧ 0 ≤ d.lastSecondSpeed) :
    PlotInv (updates k (application_init desktop samples)) :=
  updates_invariant PlotInv update_plotInv k _ (application_init_plotInv desktop samples hrates)

/-- The vertices `update_sample` appends are not above the top edge of a plot of
non-negative height. -/
theorem update_sample_appended (self : Application) (data : VertexData) (h : PlotInv self)
    (hdata : 0 ≤ data.speed ∧ 0 ≤ data.lastSecondSpeed)
    (hA : 0 ≤ self.graphics.axisSize.y) (v : sfVertex)
    (hv : (update_sample self data).graphics.averageBandwith.getLast? = some v ∨
      (update_sample self data).graphics.currentBandwith.getLast? = some v) :
    self.graphics.padding.y ≤ v.position.y := by
  have hL : 0 < max (max self.limitSpeed data.speed) data.lastSecondSpeed :=
    lt_of_lt_of_le h.limit_pos (le_trans (le_max_left _ _) (le_max_left _ _))
  rw [update_sample_eq] at hv
  simp only [List.getLast?_append, List.getLast?_singleton, Option.or, Option.some.injEq] at hv
  rcases hv with hv | hv
  · subst hv
    exact (projected_y_bounds _ _ _ _ _ (new_vertex_y self data _ _) hL hA hdata.1).2
      (le_trans (le_max_right _ _) (le_max_left _ _))
  · subst hv
    exact (projected_y_bounds _ _ _ _ _ (new_vertex_y self data _ _) hL hA hdata.2).2
      (le_max_right _ _)

/-! ### Runs before the first scroll -/

theorem update_no_overflow_startAxisTime (self : Application) (data : VertexData)
    (rest : List VertexData) (hq : self.dataQueue = data :: rest) (ho : ¬ overflows self data) :
    (update self).graphics.startAxisTime = self.graphics.startAxisTime ∧
    (update self).dataQueue = rest := by
  have ho' : ¬ overflows ({ self with dataQueue := rest } : Application) data := ho
  rw [update_cons self data rest hq, update_sample_eq, before_append_no_overflow _ data ho']
  simp

/-- As long as no sample reaches the right edge of the plot, every call of `update`
stays within the arrays: the run of `update_strict` has the state the run of `update`
gives. -/
theorem updates_strict_before_scroll (desktop : sfVideoMode) (samples : List VertexData)
    (h : ∀ d ∈ samples, d.time * X_TILE_SIZE < (init_graphics desktop).axisSize.x) (k : ℕ) :
    updates_strict k (application_init desktop samples) =
      some (updates k (application_init desktop samples)) := by
  have hinv : ∀ k, (updates k (application_init desktop samples)).graphics.startAxisTime = 0 ∧
      ∀ d ∈ (updates k (application_init desktop samples)).dataQueue,
        d.time * X_TILE_SIZE < (init_graphics desktop).axisSize.x := by
    intro k
    induction k with
    | zero => exact ⟨rfl, h⟩
    | succ k ih =>
      rw [updates_succ]
      cases hq : (updates k (application_init desktop samples)).dataQueue with
      | nil => rw [update_nil _ hq]; exact ih
      | cons data rest =>
        have hd := ih.2 data (by rw [hq]; exact List.mem_cons_self _ _)
        have ho : ¬ overflows (updates k (application_init desktop samples)) data := by
          unfold overflows
          rw [ih.1, updates_axisSize]
          simp only [sub_zero, ge_iff_le, not_le]
          exact hd
        obtain ⟨e1, e2⟩ := update_no_overflow_startAxisTime _ data rest hq ho
        rw [e1, e2]
        exact ⟨ih.1, fun d hd => ih.2 d (by rw [hq]; exact List.mem_cons_of_mem _ hd)⟩
  induction k with
  | zero => rfl
  | succ k ih =>
    rw [updates_strict_succ, ih, updates_succ]
    show update_strict (updates k (application_init desktop samples)) = _
    cases hq : (updates k (application_init desktop samples)).dataQueue with
    | nil => rw [update_strict_nil _ hq, update_nil _ hq]
    | cons data rest =>
      have hd := (hinv k).2 data (by rw [hq]; exact List.mem_cons_self _ _)
      have ho : ¬ overflows (updates k (application_init desktop samples)) data := by
        unfold overflows
        rw [(hinv k).1, updates_axisSize]
        simp only [sub_zero, ge_iff_le, not_le]
        exact hd
      exact update_strict_no_overflow _ data rest (updates_aligned desktop samples k) hq ho

/-! ### C5 -/

/-- C5 (the code diverges; the defect is the out-of-range access of C10): as long as
the calls of `update` stay within the arrays, the raw-data array and the vertex array
of each series have the same length, and the calls do stay within them while no sample
reaches the right edge of the plot; but a call that rebuilds a non-empty series does
not.  On a desktop of 1920 by 1080 with samples at 1 s and 8 s, the first call leaves
one point in each of the four arrays, and the second call, which takes the overflow
branch, has no defined resulting state. -/
theorem series_lengths_until_scroll :
    (∀ (desktop : sfVideoMode) (samples : List VertexData) (k : ℕ) (s : Application),
      updates_strict k (application_init desktop samples) = some s →
        s.graphics.averageBandwithData.length = s.graphics.averageBandwith.length ∧
        s.graphics.currentBandwithData.length = s.graphics.currentBandwith.length ∧
        s.graphics.averageBandwith.length = s.graphics.currentBandwith.length) ∧
    (∀ (desktop : sfVideoMode) (samples : List VertexData),
      (∀ d ∈ samples, d.time * X_TILE_SIZE < (init_graphics desktop).axisSize.x) →
        ∀ k, ∃ s, updates_strict k (application_init desktop samples) = some s) ∧
    (updates_strict 1 (application_init ⟨1920, 1080⟩
        [⟨1, 10, 10, 10⟩, ⟨8, 10, 80, 10⟩])).map
      (fun s => (s.graphics.averageBandwithData.length, s.graphics.averageBandwith.length,
        s.graphics.currentBandwithData.length, s.graphics.currentBandwith.length)) =
      some (1, 1, 1, 1) ∧
    updates_strict 2 (application_init ⟨1920, 1080⟩
        [⟨1, 10, 10, 10⟩, ⟨8, 10, 80, 10⟩]) = none := by
  refine ⟨?_, ?_, by decide!, by decide!⟩
  · intro desktop samples k s h
    rw [updates_strict_eq_some k _ s h]
    exact updates_aligned desktop samples k
  · intro desktop samples h k
    exact ⟨_, updates_strict_before_scroll desktop samples h k⟩

/-! ### C9 -/

/-- C9 (the code diverges; the defect is the out-of-range access of C10): in a chart
state whose four arrays have the same length, a call of `update` that does not take
the overflow branch stays within the arrays and leaves in each series all the old raw
points followed by the new one, the time and the rate of the sample as `float`s, with
the origin unchanged; a call that takes the overflow branch while each series holds at
least one point makes an access past the end, so it has no defined resulting state. -/
theorem overflow_append_past_end (self : Application) (data : VertexData)
    (rest : List VertexData)
    (hlen : self.graphics.averageBandwithData.length = self.graphics.averageBandwith.length ∧
      self.graphics.currentBandwithData.length = self.graphics.currentBandwith.length ∧
      self.graphics.averageBandwith.length = self.graphics.currentBandwith.length)
    (hq : self.dataQueue = data :: rest) :
    (overflows self data → self.graphics.averageBandwith ≠ [] → update_strict self = none) ∧
    (¬ overflows self data →
      ∃ s, update_strict self = some s ∧
        s.graphics.averageBandwithData =
          self.graphics.averageBandwithData ++
            [⟨⟨float_of_double data.time, float_of_double data.speed⟩,
              sfColor.sfTransparent⟩] ∧
        s.graphics.currentBandwithData =
          self.graphics.currentBandwithData ++
            [⟨⟨float_of_double data.time, float_of_double data.lastSecondSpeed⟩,
              sfColor.sfTransparent⟩] ∧
        s.graphics.startAxisTime = self.graphics.startAxisTime) := by
  have ha : Aligned self.graphics := hlen
  refine ⟨fun ho hne => update_strict_overflow self data rest ha hq ho hne, ?_⟩
  intro ho
  refine ⟨update self, update_strict_no_overflow self data rest ha hq ho, ?_⟩
  have ho' : ¬ overflows ({ self with dataQueue := rest } : Application) data := ho
  rw [update_cons self data rest hq, update_sample_eq, before_append_no_overflow _ data ho']
  simp

/-- C9 at a concrete state: a desktop of 1920 by 1080, one point at 1 s in the chart
and a sample at 9 s in the queue. -/
theorem overflow_append_past_end_witness :
    (updates 1 (application_init ⟨1920, 1080⟩ [⟨1, 10, 10, 10⟩, ⟨9, 10, 90, 10⟩])).dataQueue =
      [⟨9, 10, 90, 10⟩] ∧
    overflows (updates 1 (application_init ⟨1920, 1080⟩ [⟨1, 10, 10, 10⟩, ⟨9, 10, 90, 10⟩]))
      ⟨9, 10, 90, 10⟩ ∧
    (updates 1 (application_init ⟨1920, 1080⟩
      [⟨1, 10, 10, 10⟩, ⟨9, 10, 90, 10⟩])).graphics.averageBandwithData =
      [⟨⟨1, 10⟩, sfColor.sfTransparent⟩] ∧
    update_strict (updates 1 (application_init ⟨1920, 1080⟩
      [⟨1, 10, 10, 10⟩, ⟨9, 10, 90, 10⟩])) = none :=
  ⟨by decide!, by decide!, by decide!,
    (overflow_append_past_end
      (updates 1 (application_init ⟨1920, 1080⟩ [⟨1, 10, 10, 10⟩, ⟨9, 10, 90, 10⟩]))
      ⟨9, 10, 90, 10⟩ [] (by decide!) (by decide!)).1 (by decide!) (by decide!)⟩

/-! ### C2 -/

/-- C7 (the code diverges): on a call that takes the overflow branch the new vertex is
computed against the old origin, before the rebuild moves the origin, and is appended
as computed.  On a desktop of 1920 by 1080 with points at 1 s and 2 s in the chart, the
call that consumes the sample at 7.2 s takes the overflow branch: the new vertex is
computed at the right edge (X = 50 + 1078.72), the rebuild moves the origin to 2 s,
for which `get_vertex_pos` and `add_padding` give X = 830,
and after the call (`update`, the out-of-range access of that branch taken as touching
no element) the pair just appended does not satisfy the projection formula for the
origin that holds after the call.  After the next sample, at 7.3 s and drawn at
X = 845, the vertex of the point at 7.2 s is to the right of the vertex of the point
at 7.3 s. -/
theorem new_vertex_against_old_origin :
    overflows (updates 2 (application_init ⟨1920, 1080⟩
        [⟨1, 10, 10, 10⟩, ⟨2, 10, 20, 10⟩, ⟨72 / 10, 10, 72, 10⟩])) ⟨72 / 10, 10, 72, 10⟩ ∧
    (new_vertex (updates 2 (application_init ⟨1920, 1080⟩
        [⟨1, 10, 10, 10⟩, ⟨2, 10, 20, 10⟩, ⟨72 / 10, 10, 72, 10⟩])) ⟨72 / 10, 10, 72, 10⟩ 10
        sfColor.sfRed).position.x = 50 + 107872 / 100 ∧
    (rebuild_series (updates 2 (application_init ⟨1920, 1080⟩
        [⟨1, 10, 10, 10⟩, ⟨2, 10, 20, 10⟩, ⟨72 / 10, 10, 72, 10⟩])).graphics 2).startAxisTime = 2 ∧
    (add_padding (init_graphics ⟨1920, 1080⟩).padding
      (get_vertex_pos blankVertex (init_graphics ⟨1920, 1080⟩).axisSize 2 (72 / 10) 10
        1000)).position.x = 830 ∧
    (updates 3 (application_init ⟨1920, 1080⟩
        [⟨1, 10, 10, 10⟩, ⟨2, 10, 20, 10⟩, ⟨72 / 10, 10, 72, 10⟩])).graphics.startAxisTime = 2 ∧
    (∃ p ∈ List.zip
        (updates 3 (application_init ⟨1920, 1080⟩
          [⟨1, 10, 10, 10⟩, ⟨2, 10, 20, 10⟩, ⟨72 / 10, 10, 72, 10⟩])).graphics.averageBandwithData
        (updates 3 (application_init ⟨1920, 1080⟩
          [⟨1, 10, 10, 10⟩, ⟨2, 10, 20, 10⟩, ⟨72 / 10, 10, 72, 10⟩])).graphics.averageBandwith,
      p.1.position.x = float_of_double (72 / 10) ∧
      p.2.position.x = 50 + 107872 / 100 ∧
      ¬ ClampedProjection
        (updates 3 (application_init ⟨1920, 1080⟩
          [⟨1, 10, 10, 10⟩, ⟨2, 10, 20, 10⟩, ⟨72 / 10, 10, 72, 10⟩])).graphics
        (updates 3 (application_init ⟨1920, 1080⟩
          [⟨1, 10, 10, 10⟩, ⟨2, 10, 20, 10⟩, ⟨72 / 10, 10, 72, 10⟩])).limitSpeed p.1 p.2) ∧
    (updates 4 (application_init ⟨1920, 1080⟩
        [⟨1, 10, 10, 10⟩, ⟨2, 10, 20, 10⟩, ⟨72 / 10, 10, 72, 10⟩,
          ⟨73 / 10, 10, 73, 10⟩])).graphics.averageBandwith.map (fun v => v.position.x) =
      [50, 50 + 107872 / 100, 845] := by
  refine ⟨by decide!, by decide!, by decide!, by decide!, by decide!, by decide!, by decide!⟩

/-! ### C8 -/

/-- C8 as stated does not hold, for two reasons.  On a desktop of 1920 by 300 the plot
has a negative height (`axisSize.y = 99.9 - 120`) and the vertex of the one sample
consumed, of rate 10, is at Y = 40.101, above `padding.y = 60` on the screen.  On a
desktop of 1920 by 1080, two samples of rate 20000 + 3/1024 (both rates of each): the
first raises the ceiling to that rate and its raw point stores the rate as a `float`,
20000 + 1/256, above the ceiling; the second makes `relocate_vertices` recompute the
first vertex from the stored value, to a Y smaller than `padding.y`.  Both runs stay
within the arrays. -/
theorem vertices_outside_plot :
    ((∀ d ∈ ([⟨1, 10, 10, 10⟩] : List VertexData), 0 ≤ d.speed ∧ 0 ≤ d.lastSecondSpeed) ∧
      updates_strict 1 (application_init ⟨1920, 300⟩ [⟨1, 10, 10, 10⟩]) =
        some (updates 1 (application_init ⟨1920, 300⟩ [⟨1, 10, 10, 10⟩])) ∧
      ∃ v ∈ (updates 1 (application_init ⟨1920, 300⟩ [⟨1, 10, 10, 10⟩])).graphics.averageBandwith,
        v.position.y = 40101 / 1000 ∧
        ¬ ((updates 1 (application_init ⟨1920, 300⟩ [⟨1, 10, 10, 10⟩])).graphics.padding.y ≤
            v.position.y ∧
          v.position.y ≤
            (updates 1 (application_init ⟨1920, 300⟩ [⟨1, 10, 10, 10⟩])).graphics.padding.y +
            (updates 1 (application_init ⟨1920, 300⟩
              [⟨1, 10, 10, 10⟩])).graphics.axisSize.y)) ∧
    ((∀ d ∈ ([⟨1, 20000 + 3 / 1024, 20000 + 3 / 1024, 20000 + 3 / 1024⟩,
          ⟨2, 20000 + 3 / 1024, 40000 + 6 / 1024, 20000 + 3 / 1024⟩] : List VertexData),
        0 ≤ d.speed ∧ 0 ≤ d.lastSecondSpeed) ∧
      updates_strict 2 (application_init ⟨1920, 1080⟩
          [⟨1, 20000 + 3 / 1024, 20000 + 3 / 1024, 20000 + 3 / 1024⟩,
            ⟨2, 20000 + 3 / 1024, 40000 + 6 / 1024, 20000 + 3 / 1024⟩]) =
        some (updates 2 (application_init ⟨1920, 1080⟩
          [⟨1, 20000 + 3 / 1024, 20000 + 3 / 1024, 20000 + 3 / 1024⟩,
            ⟨2, 20000 + 3 / 1024, 40000 + 6 / 1024, 20000 + 3 / 1024⟩])) ∧
      (updates 2 (application_init ⟨1920, 1080⟩
          [⟨1, 20000 + 3 / 1024, 20000 + 3 / 1024, 20000 + 3 / 1024⟩,
            ⟨2, 20000 + 3 / 1024, 40000 + 6 / 1024, 20000 + 3 / 1024⟩])).limitSpeed =
        20000 + 3 / 1024 ∧
      (updates 2 (application_init ⟨1920, 1080⟩
          [⟨1, 20000 + 3 / 1024, 20000 + 3 / 1024, 20000 + 3 / 1024⟩,
            ⟨2, 20000 + 3 / 1024, 40000 + 6 / 1024, 20000 + 3 / 1024⟩])).graphics.averageBandwithData.map
          (fun d => d.position.y) = [20000 + 1 / 256, 20000 + 1 / 256] ∧
      ∃ v ∈ (updates 2 (application_init ⟨1920, 1080⟩
          [⟨1, 20000 + 3 / 1024, 20000 + 3 / 1024, 20000 + 3 / 1024⟩,
            ⟨2, 20000 + 3 / 1024, 40000 + 6 / 1024, 20000 + 3 / 1024⟩])).graphics.averageBandwith,
        v.position.y < (updates 2 (application_init ⟨1920, 1080⟩
          [⟨1, 20000 + 3 / 1024, 20000 + 3 / 1024, 20000 + 3 / 1024⟩,
            ⟨2, 20000 + 3 / 1024, 40000 + 6 / 1024, 20000 + 3 / 1024⟩])).graphics.padding.y) := by
  refine ⟨⟨by decide!, by decide!, by decide!⟩, by decide!, by decide!, by decide!, by decide!,
    by decide!⟩

/-- C8, amended: for samples of non-negative rates and a plot of non-negative height,
after each `update` call that consumes a sample, in a run that stays within the
arrays: no vertex of either series is below the bottom edge of the plot
(`y <= padding.y + axisSize.y`); every vertex whose raw value, as stored, is at most
the ceiling is not above the top edge (`padding.y <= y`); and the two vertices the call
appends are not above the top edge either. -/
theorem vertices_inside_plot (desktop : sfVideoMode) (samples : List VertexData) (k : ℕ)
    (s s1 : Application) (data : VertexData) (rest : List VertexData)
    (hrun : updates_strict k (application_init desktop samples) = some s)
    (hq : s.dataQueue = data :: rest)
    (hcall : update_strict s = some s1)
    (hheight : 0 ≤ (init_graphics desktop).axisSize.y)
    (hrates : ∀ d ∈ samples, 0 ≤ d.speed ∧ 0 ≤ d.lastSecondSpeed) :
    (∀ v ∈ s1.graphics.averageBandwith ++ s1.graphics.currentBandwith,
      v.position.y ≤ s1.graphics.padding.y + s1.graphics.axisSize.y) ∧
    AllBelowTop s1.graphics s1.limitSpeed ∧
    (∀ v, s1.graphics.averageBandwith.getLast? = some v ∨
        s1.graphics.currentBandwith.getLast? = some v →
      s1.graphics.padding.y ≤ v.position.y ∧
      v.position.y ≤ s1.graphics.padding.y + s1.graphics.axisSize.y) := by
  have es := updates_strict_eq_some k _ s hrun
  have e1 := update_strict_eq_some s s1 hcall
  have hinv : PlotInv s := by
    rw [es]
    exact updates_plotInv desktop samples k hrates
  have hA : 0 ≤ s.graphics.axisSize.y := by
    rw [es, updates_axisSize]
    exact hheight
  have hinv1 : PlotInv s1 := by
    rw [e1]
    exact update_plotInv s hinv
  have hA1 : 0 ≤ s1.graphics.axisSize.y := by
    rw [e1, update_axisSize]
    exact hA
  have hbottom := hinv1.bottom hA1
  refine ⟨hbottom, hinv1.top hA1, ?_⟩
  intro v hv
  have hmem : v ∈ s1.graphics.averageBandwith ++ s1.graphics.currentBandwith := by
    rcases hv with hv | hv
    · exact List.mem_append_left _ (List.mem_of_mem_getLast? (Option.mem_def.mpr hv))
    · exact List.mem_append_right _ (List.mem_of_mem_getLast? (Option.mem_def.mpr hv))
  refine ⟨?_, hbottom v hmem⟩
  have hp : PlotInv { s with dataQueue := rest } :=
    ⟨hinv.aligned, hinv.limit_pos,
      ⟨hinv.nonneg.1, fun d hd => hinv.nonneg.2 d (by rw [hq]; exact List.mem_cons_of_mem _ hd)⟩,
      hinv.bottom, hinv.top⟩
  have hdata := hinv.nonneg.2 data (by rw [hq]; exact List.mem_cons_self _ _)
  rw [e1, update_cons s data rest hq] at hv
  rw [e1, update_padding]
  exact update_sample_appended { s with dataQueue := rest } data hp hdata hA v hv

/-- C8, amended, at a concrete run: a desktop of 1920 by 1080, the sample at 1 s
consumed and the sample at 2 s, which raises the ceiling from 2000 to 4000, being
consumed. -/
theorem vertices_inside_plot_witness :
    updates_strict 1 (application_init ⟨1920, 1080⟩
        [⟨1, 2000, 2000, 2000⟩, ⟨2, 3000, 6000, 4000⟩]) =
      some (updates 1 (application_init ⟨1920, 1080⟩
        [⟨1, 2000, 2000, 2000⟩, ⟨2, 3000, 6000, 4000⟩])) ∧
    update_strict (updates 1 (application_init ⟨1920, 1080⟩
        [⟨1, 2000, 2000, 2000⟩, ⟨2, 3000, 6000, 4000⟩])) =
      some (updates 2 (application_init ⟨1920, 1080⟩
        [⟨1, 2000, 2000, 2000⟩, ⟨2, 3000, 6000, 4000⟩])) ∧
    (0 : ℚ) ≤ (init_graphics ⟨1920, 1080⟩).axisSize.y ∧
    ((∀ v ∈ (updates 2 (application_init ⟨1920, 1080⟩
          [⟨1, 2000, 2000, 2000⟩, ⟨2, 3000, 6000, 4000⟩])).graphics.averageBandwith ++
        (updates 2 (application_init ⟨1920, 1080⟩
          [⟨1, 2000, 2000, 2000⟩, ⟨2, 3000, 6000, 4000⟩])).graphics.currentBandwith,
      v.position.y ≤ (updates 2 (application_init ⟨1920, 1080⟩
          [⟨1, 2000, 2000, 2000⟩, ⟨2, 3000, 6000, 4000⟩])).graphics.padding.y +
        (updates 2 (application_init ⟨1920, 1080⟩
          [⟨1, 2000, 2000, 2000⟩, ⟨2, 3000, 6000, 4000⟩])).graphics.axisSize.y) ∧
    AllBelowTop
      (updates 2 (application_init ⟨1920, 1080⟩
        [⟨1, 2000, 2000, 2000⟩, ⟨2, 3000, 6000, 4000⟩])).graphics
      (updates 2 (application_init ⟨1920, 1080⟩
        [⟨1, 2000, 2000, 2000⟩, ⟨2, 3000, 6000, 4000⟩])).limitSpeed ∧
    (∀ v, (updates 2 (application_init ⟨1920, 1080⟩
          [⟨1, 2000, 2000, 2000⟩, ⟨2, 3000, 6000, 4000⟩])).graphics.averageBandwith.getLast? =
          some v ∨
        (updates 2 (application_init ⟨1920, 1080⟩
          [⟨1, 2000, 2000, 2000⟩, ⟨2, 3000, 6000, 4000⟩])).graphics.currentBandwith.getLast? =
          some v →
      (updates 2 (application_init ⟨1920, 1080⟩
          [⟨1, 2000, 2000, 2000⟩, ⟨2, 3000, 6000, 4000⟩])).graphics.padding.y ≤ v.position.y ∧
      v.position.y ≤ (updates 2 (application_init ⟨1920, 1080⟩
          [⟨1, 2000, 2000, 2000⟩, ⟨2, 3000, 6000, 4000⟩])).graphics.padding.y +
        (updates 2 (application_init ⟨1920, 1080⟩
          [⟨1, 2000, 2000, 2000⟩, ⟨2, 3000, 6000, 4000⟩])).graphics.axisSize.y)) :=
  ⟨by decide!, by decide!, by decide!,
    vertices_inside_plot ⟨1920, 1080⟩ [⟨1, 2000, 2000, 2000⟩, ⟨2, 3000, 6000, 4000⟩] 1
      (updates 1 (application_init ⟨1920, 1080⟩ [⟨1, 2000, 2000, 2000⟩, ⟨2, 3000, 6000, 4000⟩]))
      (updates 2 (application_init ⟨1920, 1080⟩ [⟨1, 2000, 2000, 2000⟩, ⟨2, 3000, 6000, 4000⟩]))
      ⟨2, 3000, 6000, 4000⟩ [] (by decide!) (by decide!) (by decide!) (by decide!) (by decide!)⟩

/-! ### `progress_callback`: the two branches -/

theorem progress_callback_emit (self : Application) (info : CurlInfo)
    (h : info.totalTime - self.lastTime ≥ UPDATE_TICK_FREQUENCY) :
    progress_callback self info =
      { self with
        lastTime := float_of_double info.totalTime,
        lastSecondQueue :=
          cleanup ((bb_queue_add self.lastSecondQueue
              ⟨info.totalTime, 0, info.sizeDownload / 1024, 0⟩).foldl
              (scan_item info.totalTime) ⟨0, 0, self.clearQueue⟩).clearQueue
            (bb_queue_add self.lastSecondQueue ⟨info.totalTime, 0, info.sizeDownload / 1024, 0⟩),
        clearQueue := [],
        dataQueue := bb_queue_push self.dataQueue
          ⟨info.totalTime, info.speedDownload / 1024, info.sizeDownload / 1024,
            ((bb_queue_add self.lastSecondQueue
              ⟨info.totalTime, 0, info.sizeDownload / 1024, 0⟩).foldl
              (scan_item info.totalTime) ⟨0, 0, self.clearQueue⟩).bytesCount⟩ } := by
  unfold progress_callback
  simp only [if_pos h]

theorem progress_callback_skip (self : Application) (info : CurlInfo)
    (h : info.totalTime - self.lastTime < UPDATE_TICK_FREQUENCY) :
    progress_callback self info =
      { self with lastSecondQueue :=
          bb_queue_add self.lastSecondQueue ⟨info.totalTime, 0, info.sizeDownload / 1024, 0⟩ } := by
  unfold progress_callback
  simp only [if_neg (not_le.mpr h)]

theorem progress_callbacks_append (self : Application) (infos : List CurlInfo) (info : CurlInfo) :
    progress_callbacks self (infos ++ [info]) =
      progress_callback (progress_callbacks self infos) info := by
  simp [progress_callbacks, List.foldl_append]

/-! ### C6 -/

/-- C6 (the code diverges): `lastTime` is a `static float`.  A call of
`progress_callback` at time `time` pushes exactly one sample, with that time, onto the
shared queue when `time - lastTime >= 0.01`, and then sets `lastTime` to `time`
narrowed to a `float`; it pushes nothing and leaves `lastTime` as it is when
`time - lastTime < 0.01`.  From the initial state, the call at 1024 + 1/32768 s emits
and leaves `lastTime = 1024`, so the call at 1024 + 328/32768 s emits as well: the
shared queue then holds two consecutive samples whose times are 327/32768 s apart,
less than 0.01. -/
theorem throttle_measures_from_float :
    (∀ (self : Application) (info : CurlInfo),
      info.totalTime - self.lastTime ≥ UPDATE_TICK_FREQUENCY →
        (∃ bytes, (progress_callback self info).dataQueue = self.dataQueue ++
          [⟨info.totalTime, info.speedDownload / 1024, info.sizeDownload / 1024, bytes⟩]) ∧
        (progress_callback self info).lastTime = float_of_double info.totalTime) ∧
    (∀ (self : Application) (info : CurlInfo),
      info.totalTime - self.lastTime < UPDATE_TICK_FREQUENCY →
        (progress_callback self info).dataQueue = self.dataQueue ∧
        (progress_callback self info).lastTime = self.lastTime) ∧
    (progress_callback (application_init ⟨1920, 1080⟩ [])
      ⟨1024 + 1 / 32768, 1048576, 1024⟩).lastTime = 1024 ∧
    (progress_callbacks (application_init ⟨1920, 1080⟩ [])
      [⟨1024 + 1 / 32768, 1048576, 1024⟩, ⟨1024 + 328 / 32768, 1048576, 1024⟩]).dataQueue.map
        (fun d => d.time) = [1024 + 1 / 32768, 1024 + 328 / 32768] ∧
    (1024 + 328 / 32768 : ℚ) - (1024 + 1 / 32768) < UPDATE_TICK_FREQUENCY := by
  refine ⟨?_, ?_, by decide!, by decide!, by decide!⟩
  · intro self info h
    rw [progress_callback_emit self info h]
    exact ⟨⟨_, rfl⟩, rfl⟩
  · intro self info h
    rw [progress_callback_skip self info h]
    exact ⟨rfl, rfl⟩

/-! ### C4 -/

theorem cleanup_count (d : VertexData) (clearQueue lastSecondQueue : List VertexData) :
    (cleanup clearQueue lastSecondQueue).count d =
      lastSecondQueue.count d - clearQueue.count d := by
  induction clearQueue generalizing lastSecondQueue with
  | nil => simp [cleanup]
  | cons c clearQueue ih =>
    rw [cleanup, ih, bb_queue_remv, List.count_erase, List.count_cons]
    by_cases hc : c = d
    · subst hc
      simp
      omega
    · have hc2 : ¬ d = c := fun e => hc e.symm
      simp [hc, hc2]

theorem scan_clearQueue_count (time : ℚ) (d : VertexData)
    (hd : ¬ (d.time ≤ time ∧ d.time ≥ time - 1)) (hv : time ≥ d.time + 20)
    (q : List VertexData) (st : ScanState) :
    (q.foldl (scan_item time) st).clearQueue.count d = st.clearQueue.count d + q.count d := by
  induction q generalizing st with
  | nil => simp
  | cons e q ih =>
    rw [List.foldl_cons, ih, List.count_cons]
    unfold scan_item
    by_cases hw : e.time ≤ time ∧ e.time ≥ time - 1
    · have hne : ¬ e = d := by
        intro he
        subst he
        exact hd hw
      rw [if_pos hw]
      simp [hne]
    · by_cases hve : time ≥ e.time + 20
      · simp only [if_neg hw, if_pos hve, bb_queue_add, List.count_append, List.count_singleton]
        simp only [beq_iff_eq]
        omega
      · have hne : ¬ e = d := by
          intro he
          subst he
          exact hve hv
        rw [if_neg hw, if_neg hve]
        simp [hne]

/-- C4, for the calls that emit: after a call of `progress_callback` that emits at time `T`
(`T - lastTime >= 0.01`), every raw sample still in `lastSecondQueue` has
`time > T - 20`; in particular none has `time < T - 20`. -/
theorem eviction_on_emitting_call (self : Application) (info : CurlInfo)
    (h : info.totalTime - self.lastTime ≥ UPDATE_TICK_FREQUENCY) :
    ∀ d ∈ (progress_callback self info).lastSecondQueue,
      info.totalTime - 20 < d.time ∧ ¬ d.time < info.totalTime - 20 := by
  intro d hd
  have key : info.totalTime - 20 < d.time := by
    by_contra hc
    have hc : d.time ≤ info.totalTime - 20 := not_lt.mp hc
    rw [progress_callback_emit self info h] at hd
    simp only at hd
    have hcount := List.count_pos_iff.mpr hd
    rw [cleanup_count, scan_clearQueue_count info.totalTime d
      (by intro hw; linarith [hw.2]) (by linarith)] at hcount
    omega
  exact ⟨key, not_lt.mpr (le_of_lt key)⟩

/-- C4, for the calls that emit, at a concrete input: the calls at times 0.005 and 20.5. -/
theorem eviction_on_emitting_call_witness :
    (41 / 2 : ℚ) -
      (progress_callbacks (application_init ⟨1920, 1080⟩ []) [⟨5 / 1000, 0, 0⟩]).lastTime ≥
      UPDATE_TICK_FREQUENCY ∧
    ∀ d ∈ (progress_callback
      (progress_callbacks (application_init ⟨1920, 1080⟩ []) [⟨5 / 1000, 0, 0⟩])
      ⟨41 / 2, 1000, 50⟩).lastSecondQueue,
      (41 / 2 : ℚ) - 20 < d.time ∧ ¬ d.time < 41 / 2 - 20 :=
  ⟨by decide!, eviction_on_emitting_call
    (progress_callbacks (application_init ⟨1920, 1080⟩ []) [⟨5 / 1000, 0, 0⟩])
    ⟨41 / 2, 1000, 50⟩ (by decide!)⟩

/-- C4 does not hold of every call: the calls at times 0.005, 20 and 20.008 have non-decreasing
times, the last one does not emit (`20.008 - 20 < 0.01`), and after it the raw
sample of time 0.005 is still in `lastSecondQueue` although `0.005 < 20.008 - 20`. -/
theorem eviction_skipped_between_ticks :
    ((5 / 1000 : ℚ) ≤ 20 ∧ (20 : ℚ) ≤ 20008 / 1000) ∧
    ∃ d ∈ (progress_callbacks (application_init ⟨1920, 1080⟩ [])
      [⟨5 / 1000, 0, 0⟩, ⟨20, 1000, 50⟩, ⟨20008 / 1000, 2000, 50⟩]).lastSecondQueue,
      d.time < 20008 / 1000 - 20 := by
  decide!

/-! ### C1 -/

/-- C1, on its own scenario: after the raw samples `(t = 0.0, 0 bytes)` and
`(t = 1.0, 1000 bytes)`, the call at `T = 1.0` emits one sample whose
`lastSecondSpeed` is `0`, not `1000 / 1024`. -/
theorem windowed_rate_zero_baseline :
    (progress_callbacks (application_init ⟨1920, 1080⟩ [])
      [⟨0, 0, 0⟩, ⟨1, 1000, 1000⟩]).dataQueue = [⟨1, 1000 / 1024, 1000 / 1024, 0⟩] ∧
    (0 : ℚ) ≠ 1000 / 1024 := by
  decide!

/-! ### C11 -/

theorem scan_item_in_window (time : ℚ) (st : ScanState) (data : VertexData)
    (h : data.time ≤ time ∧ data.time ≥ time - 1) :
    (scan_item time st data).bytesCount =
      st.bytesCount + (data.size - if st.lastBytesCount = 0 then data.size else st.lastBytesCount) ∧
    (scan_item time st data).lastBytesCount = data.size := by
  unfold scan_item
  rw [if_pos h]
  exact ⟨rfl, rfl⟩

theorem scan_item_outside_window (time : ℚ) (st : ScanState) (data : VertexData)
    (h : ¬ (data.time ≤ time ∧ data.time ≥ time - 1)) :
    (scan_item time st data).bytesCount = st.bytesCount ∧
    (scan_item time st data).lastBytesCount = st.lastBytesCount := by
  unfold scan_item
  rw [if_neg h]
  split <;> exact ⟨rfl, rfl⟩

theorem mem_in_window {time : ℚ} {q : List VertexData} {data : VertexData}
    (h : data ∈ in_window time q) : data ∈ q ∧ data.time ≤ time ∧ data.time ≥ time - 1 := by
  unfold in_window at h
  simpa using List.mem_filter.mp h

/-- The counters of the scan depend on the samples of the window only. -/
theorem scan_counts_in_window (time : ℚ) (q : List VertexData) (st st' : ScanState)
    (hb : st.bytesCount = st'.bytesCount) (hl : st.lastBytesCount = st'.lastBytesCount) :
    (q.foldl (scan_item time) st).bytesCount =
      ((in_window time q).foldl (scan_item time) st').bytesCount ∧
    (q.foldl (scan_item time) st).lastBytesCount =
      ((in_window time q).foldl (scan_item time) st').lastBytesCount := by
  induction q generalizing st st' with
  | nil => exact ⟨hb, hl⟩
  | cons e q ih =>
    by_cases hw : e.time ≤ time ∧ e.time ≥ time - 1
    · have hf : in_window time (e :: q) = e :: in_window time q := by
        unfold in_window
        rw [List.filter_cons_of_pos (by simpa using hw)]
      rw [hf, List.foldl_cons, List.foldl_cons]
      have h1 := scan_item_in_window time st e hw
      have h2 := scan_item_in_window time st' e hw
      exact ih _ _ (by rw [h1.1, h2.1, hb, hl]) (by rw [h1.2, h2.2])
    · have hf : in_window time (e :: q) = in_window time q := by
        unfold in_window
        rw [List.filter_cons_of_neg (by simpa using hw)]
      rw [hf, List.foldl_cons]
      have h1 := scan_item_outside_window time st e hw
      exact ih _ _ (by rw [h1.1, hb]) (by rw [h1.2, hl])

/-- Once the baseline is not zero and no later size is zero, the sum telescopes. -/
theorem scan_telescopes (time : ℚ) (w : List VertexData) (st : ScanState)
    (hw : ∀ d ∈ w, d.time ≤ time ∧ d.time ≥ time - 1) (hl : st.lastBytesCount ≠ 0)
    (hnz : ∀ d ∈ w, d.size ≠ 0) :
    (w.foldl (scan_item time) st).bytesCount =
      st.bytesCount + ((w.getLast?.map (fun d => d.size)).getD st.lastBytesCount -
        st.lastBytesCount) := by
  induction w generalizing st with
  | nil => simp
  | cons d w ih =>
    have h1 := scan_item_in_window time st d (hw d (List.mem_cons_self _ _))
    rw [List.foldl_cons,
      ih (scan_item time st d) (fun e he => hw e (List.mem_cons_of_mem _ he))
        (by rw [h1.2]; exact hnz d (List.mem_cons_self _ _))
        (fun e he => hnz e (List.mem_cons_of_mem _ he)),
      h1.1, h1.2, if_neg hl, List.getLast?_cons]
    cases w.getLast? with
    | none => simp
    | some l => simp; ring

theorem last_minus_first_nonzero_cons_zero (d : VertexData) (w : List VertexData)
    (hd : d.size = 0) : last_minus_first_nonzero (d :: w) = last_minus_first_nonzero w := by
  unfold last_minus_first_nonzero
  rw [List.find?_cons]
  simp only [hd, ne_eq, not_true_eq_false, decide_False]
  cases w with
  | nil => simp
  | cons e w => rw [List.getLast?_cons_cons]

theorem last_minus_first_nonzero_cons_nonzero (d : VertexData) (w : List VertexData)
    (hd : d.size ≠ 0) :
    last_minus_first_nonzero (d :: w) = (w.getLast?.map (fun e => e.size)).getD d.size - d.size := by
  unfold last_minus_first_nonzero
  rw [List.find?_cons, List.getLast?_cons]
  simp only [ne_eq, hd, not_false_eq_true, decide_True]
  cases w.getLast? <;> simp

/-- From a zero baseline, on non-negative and non-decreasing sizes, the scan counts
the last size minus the first non-zero size. -/
theorem scan_from_zero_baseline (time : ℚ) (w : List VertexData) (st : ScanState)
    (hw : ∀ d ∈ w, d.time ≤ time ∧ d.time ≥ time - 1) (hl : st.lastBytesCount = 0)
    (hnonneg : ∀ d ∈ w, 0 ≤ d.size)
    (hmono : List.Pairwise (fun a b : VertexData => a.size ≤ b.size) w) :
    (w.foldl (scan_item time) st).bytesCount = st.bytesCount + last_minus_first_nonzero w := by
  induction w generalizing st with
  | nil => simp [last_minus_first_nonzero]
  | cons d w ih =>
    have h1 := scan_item_in_window time st d (hw d (List.mem_cons_self _ _))
    have hw' : ∀ e ∈ w, e.time ≤ time ∧ e.time ≥ time - 1 :=
      fun e he => hw e (List.mem_cons_of_mem _ he)
    rw [List.pairwise_cons] at hmono
    rw [List.foldl_cons]
    by_cases hd : d.size = 0
    · rw [ih (scan_item time st d) hw' (by rw [h1.2]; exact hd)
        (fun e he => hnonneg e (List.mem_cons_of_mem _ he)) hmono.2,
        last_minus_first_nonzero_cons_zero d w hd, h1.1, hl]
      simp
    · have hpos : 0 < d.size :=
        lt_of_le_of_ne (hnonneg d (List.mem_cons_self _ _)) (Ne.symm hd)
      rw [scan_telescopes time w (scan_item time st d) hw' (by rw [h1.2]; exact hd)
        (fun e he => ne_of_gt (lt_of_lt_of_le hpos (hmono.1 e he))),
        last_minus_first_nonzero_cons_nonzero d w hd, h1.1, h1.2, hl]
      simp

/-- C11: on a call of `progress_callback` that emits at time `T`, if the sizes of the
buffered samples (the record of the call included) are non-negative and
non-decreasing in buffer order, the `lastSecondSpeed` of the emitted sample is the
size of the last sample of the window `[T - 1, T]` minus the size of the first sample
of the window whose size is not zero, and `0` when no sample of the window has a
non-zero size; in particular it is last minus first when the first sample of the
window has a non-zero size. -/
theorem windowed_rate_from_first_nonzero (self : Application) (info : CurlInfo)
    (hemit : info.totalTime - self.lastTime ≥ UPDATE_TICK_FREQUENCY)
    (hnonneg : ∀ d ∈ scanned_buffer self info, 0 ≤ d.size)
    (hmono : List.Pairwise (fun a b : VertexData => a.size ≤ b.size)
      (scanned_buffer self info)) :
    ∃ rate : ℚ,
      (progress_callback self info).dataQueue = self.dataQueue ++
        [⟨info.totalTime, info.speedDownload / 1024, info.sizeDownload / 1024, rate⟩] ∧
      rate = last_minus_first_nonzero (in_window info.totalTime (scanned_buffer self info)) ∧
      (∀ first last,
        (in_window info.totalTime (scanned_buffer self info)).find?
          (fun data => data.size ≠ 0) = some first →
        (in_window info.totalTime (scanned_buffer self info)).getLast? = some last →
        rate = last.size - first.size) ∧
      ((∀ d ∈ in_window info.totalTime (scanned_buffer self info), d.size = 0) → rate = 0) ∧
      (∀ first last,
        (in_window info.totalTime (scanned_buffer self info)).head? = some first →
        (in_window info.totalTime (scanned_buffer self info)).getLast? = some last →
        first.size ≠ 0 → rate = last.size - first.size) := by
  refine ⟨last_minus_first_nonzero (in_window info.totalTime (scanned_buffer self info)),
    ?_, rfl, ?_, ?_, ?_⟩
  · rw [progress_callback_emit self info hemit]
    have h1 := (scan_counts_in_window info.totalTime (scanned_buffer self info)
      ⟨0, 0, self.clearQueue⟩ ⟨0, 0, self.clearQueue⟩ rfl rfl).1
    have h2 := scan_from_zero_baseline info.totalTime
      (in_window info.totalTime (scanned_buffer self info)) ⟨0, 0, self.clearQueue⟩
      (fun d hd => (mem_in_window hd).2) rfl
      (fun d hd => hnonneg d (mem_in_window hd).1)
      (List.Pairwise.sublist (List.filter_sublist _) hmono)
    rw [h2] at h1
    simp only [zero_add] at h1
    unfold scanned_buffer at h1
    simp only [bb_queue_push, h1]
    rfl
  · intro first last hf hlast
    unfold last_minus_first_nonzero
    rw [hf, hlast]
  · intro hz
    unfold last_minus_first_nonzero
    have : (in_window info.totalTime (scanned_buffer self info)).find?
        (fun data => data.size ≠ 0) = none := by
      rw [List.find?_eq_none]
      intro d hd
      simp [hz d hd]
    rw [this]
  · intro first last hh hlast hne
    unfold last_minus_first_nonzero
    have : (in_window info.totalTime (scanned_buffer self info)).find?
        (fun data => data.size ≠ 0) = some first := by
      cases hq : in_window info.totalTime (scanned_buffer self info) with
      | nil => rw [hq] at hh; simp at hh
      | cons e w =>
        rw [hq] at hh
        simp only [List.head?_cons, Option.some.injEq] at hh
        subst hh
        rw [List.find?_cons]
        simp [hne]
    rw [this, hlast]

/-- C11 at a concrete input: after the calls at times 0.5 (1024 bytes) and 1
(2048 bytes), the call at time 1.5 with 4096 bytes emits the rate `4 - 1 = 3`. -/
theorem windowed_rate_from_first_nonzero_witness :
    in_window (3 / 2) (scanned_buffer
      (progress_callbacks (application_init ⟨1920, 1080⟩ [])
        [⟨1 / 2, 1024, 0⟩, ⟨1, 2048, 0⟩]) ⟨3 / 2, 4096, 0⟩) =
      [⟨1 / 2, 0, 1, 0⟩, ⟨1, 0, 2, 0⟩, ⟨3 / 2, 0, 4, 0⟩] ∧
    (progress_callback
      (progress_callbacks (application_init ⟨1920, 1080⟩ [])
        [⟨1 / 2, 1024, 0⟩, ⟨1, 2048, 0⟩]) ⟨3 / 2, 4096, 0⟩).dataQueue.getLast? =
      some ⟨3 / 2, 0, 4, 3⟩ ∧
    ∃ rate : ℚ,
      (progress_callback
        (progress_callbacks (application_init ⟨1920, 1080⟩ [])
          [⟨1 / 2, 1024, 0⟩, ⟨1, 2048, 0⟩]) ⟨3 / 2, 4096, 0⟩).dataQueue =
        (progress_callbacks (application_init ⟨1920, 1080⟩ [])
          [⟨1 / 2, 1024, 0⟩, ⟨1, 2048, 0⟩]).dataQueue ++
          [⟨(⟨3 / 2, 4096, 0⟩ : CurlInfo).totalTime,
            (⟨3 / 2, 4096, 0⟩ : CurlInfo).speedDownload / 1024,
            (⟨3 / 2, 4096, 0⟩ : CurlInfo).sizeDownload / 1024, rate⟩] ∧
      rate = last_minus_first_nonzero (in_window (⟨3 / 2, 4096, 0⟩ : CurlInfo).totalTime
        (scanned_buffer (progress_callbacks (application_init ⟨1920, 1080⟩ [])
          [⟨1 / 2, 1024, 0⟩, ⟨1, 2048, 0⟩]) ⟨3 / 2, 4096, 0⟩)) :=
  ⟨by decide!, by decide!,
    let ⟨rate, h1, h2, _⟩ := windowed_rate_from_first_nonzero
      (progress_callbacks (application_init ⟨1920, 1080⟩ [])
        [⟨1 / 2, 1024, 0⟩, ⟨1, 2048, 0⟩]) ⟨3 / 2, 4096, 0⟩
      (by decide!) (by decide!) (by decide!)
    ⟨rate, h1, h2⟩⟩

end BandwithPlotter
